import Mathlib

/-!
Verification of the CLIP decode-and-composite core of PsdConvert.

Shallow embedding of:
  * src/src/cspng/core/file_parser.py   (container scanner)
  * src/cspng/core/image_processor.py   (block decoder / tile compositor)
  * src/src/cspng/core/converter.py     (decode orchestrator)
  * src/src/cspng/core/sqlite_handler.py (metadata resolver)

Byte buffers are `List Nat` (one entry per byte).  `struct.unpack_from`
big-endian and little-endian reads become explicit folds; Python exceptions become
`Except`/`Option`; numpy float64 arithmetic in the blender is modelled by
exact rational arithmetic with truncation at every store into a uint8
array (truncation toward zero of nonnegative values = `Nat.floor`).  The
rational model and float64 differ at some uint8 inputs (the blend is
five roundings in the program, one in the model), so the blender theorems
below use the model only where the blend weight is the float-exact 0 or
1, where the two provably coincide.
-/

namespace PsdConvert

/-- A byte buffer: one `Nat` per byte. -/
abbrev Bytes := List Nat

/-- Big-endian unsigned read of `n` bytes at `offset` (struct.unpack_from
with a `>`-format).  Out-of-range bytes read as 0; every use either guards
the range explicitly (as the Python `struct.error` handling requires) or
is applied in-range. -/
def readBE (buf : Bytes) (offset n : Nat) : Nat :=
  (List.range n).foldl (fun acc i => acc * 256 + buf.getD (offset + i) 0) 0

/-- struct.unpack_from with format `>Q` (big-endian 8 bytes). -/
def readBE64 (buf : Bytes) (offset : Nat) : Nat := readBE buf offset 8

/-- struct.unpack_from with format `>L` (big-endian 4 bytes). -/
def readBE32 (buf : Bytes) (offset : Nat) : Nat := readBE buf offset 4

/-- struct.unpack_from with format `<L` (little-endian 4 bytes). -/
def readLE32 (buf : Bytes) (offset : Nat) : Nat :=
  (List.range 4).foldr (fun i acc => acc * 256 + buf.getD (offset + i) 0) 0

/-- The dictionary built per chunk in `ClipFileParser._read_chunk_data`:
keys `type`, `size`, `chunk_start_position`, `chunk_end_position`.
The type tag is kept as its 8 raw bytes (the Python code decodes them to a
string; on the ASCII tags compared against, byte equality and decoded
string equality coincide). -/
structure ChunkData where
  ctype : Bytes
  size : Nat
  startPos : Nat
  endPos : Nat
deriving Repr, DecidableEq

/-- Error outcomes of the scanner (`InvalidFileError` /
`DataProcessingError` in exceptions.py). -/
inductive ParseErr where
  | invalidFile
  | dataProcessing
deriving Repr, DecidableEq

/-- A UTF-8 continuation byte (`0x80`-`0xBF`). -/
def utf8Cont (c : Nat) : Bool := 128 ≤ c ∧ c ≤ 191

/-- Strict UTF-8 validity as `bytes.decode()` checks it: ASCII, 2-byte
leads `0xC2`-`0xDF`, 3-byte leads `0xE0`-`0xEF` (with the overlong and
surrogate second-byte restrictions for `0xE0` and `0xED`), 4-byte leads
`0xF0`-`0xF4` (with the overlong and out-of-range restrictions for `0xF0`
and `0xF4`); anything else raises `UnicodeDecodeError`. -/
def isValidUtf8 : Bytes → Bool
  | [] => true
  | b :: rest =>
    if b < 128 then isValidUtf8 rest
    else if b < 194 then false
    else if b < 224 then
      match rest with
      | c1 :: r => utf8Cont c1 && isValidUtf8 r
      | [] => false
    else if b < 240 then
      match rest with
      | c1 :: c2 :: r =>
        (if b = 224 then (160 ≤ c1 ∧ c1 ≤ 191 : Bool)
         else if b = 237 then (128 ≤ c1 ∧ c1 ≤ 159 : Bool)
         else utf8Cont c1) && utf8Cont c2 && isValidUtf8 r
      | _ => false
    else if b < 245 then
      match rest with
      | c1 :: c2 :: c3 :: r =>
        (if b = 240 then (144 ≤ c1 ∧ c1 ≤ 191 : Bool)
         else if b = 244 then (128 ≤ c1 ∧ c1 ≤ 143 : Bool)
         else utf8Cont c1) && utf8Cont c2 && utf8Cont c3 && isValidUtf8 r
      | _ => false
    else false

/-- The scan loop of `ClipFileParser._read_chunk_data` (file_parser.py
lines 92-119): while `offset < data_size`, read an 8-byte type tag,
decode it (`chunk_type.decode()` raises `UnicodeDecodeError` on a
non-UTF-8 tag, caught at line 136 and re-raised as a fatal error), read a
big-endian 8-byte size, record the descriptor, advance past the payload.
`struct.unpack_from` raises (also fatal) when fewer than 16 bytes remain
for the two header reads; there is no check that `offset + chunk_size`
stays inside the buffer. -/
def readChunks (buf : Bytes) (offset : Nat) : Except ParseErr (List ChunkData) :=
  if offset < buf.length then
    if offset + 16 ≤ buf.length then
      let ctype := (buf.drop offset).take 8
      if isValidUtf8 ctype then
        let csize := readBE64 buf (offset + 8)
        match readChunks buf (offset + 16 + csize) with
        | .ok rest => .ok (⟨ctype, csize, offset, offset + 16 + csize⟩ :: rest)
        | .error e => .error e
      else
        .error .invalidFile
    else
      .error .invalidFile
  else
    .ok []
termination_by buf.length - offset
decreasing_by omega

/-- The 8 ASCII bytes of the magic tag `CSFCHUNK`. -/
def csfMagic : Bytes := [67, 83, 70, 67, 72, 85, 78, 75]

/-- Entry of `_read_chunk_data`: an 8-byte magic prefix is read and
compared (`startswith` on an 8-character string is equality), 16 reserved
bytes are skipped, then the chunk loop runs from offset 24. -/
def readChunkData (buf : Bytes) : Except ParseErr (List ChunkData) :=
  if 8 ≤ buf.length ∧ buf.take 8 = csfMagic then readChunks buf 24
  else .error .invalidFile

/-- Python slice `l[1:-2]` as computed in `ClipFileParser._parse_file`
line 58: drop the first element and the last two. -/
def chunkExternalList (cs : List ChunkData) : List ChunkData :=
  (cs.drop 1).take (cs.length - 3)

/-- The 8 ASCII bytes of the external-data chunk tag `CHNKExta`. -/
def chnkExta : Bytes := [67, 72, 78, 75, 69, 120, 116, 97]

/-- The 8 ASCII bytes of the database chunk tag `CHNKSQLi`. -/
def chnkSQLi : Bytes := [67, 72, 78, 75, 83, 81, 76, 105]

/-- `ClipFileParser.get_external_id_from_chunk`: skip 16 bytes from the
chunk start, read a big-endian 8-byte length, then that many id bytes
(the Python code decodes them to a string; ids are compared for equality,
which byte-list equality models). -/
def getExternalIdFromChunk (buf : Bytes) (c : ChunkData) : Bytes :=
  let n := readBE64 buf (c.startPos + 16)
  (buf.drop (c.startPos + 24)).take n

/-- The chunk-lookup loop of `CspConverter._get_external_data` (converter
lines 200-214): walk `chunk_external_list`, skip chunks whose tag is not
`CHNKExta`, stop at the first whose stored id equals the requested one. -/
def findExternalChunk (buf : Bytes) (cs : List ChunkData) (externalId : Bytes) :
    Option ChunkData :=
  (chunkExternalList cs).find?
    (fun c => c.ctype = chnkExta ∧ getExternalIdFromChunk buf c = externalId)

/-- Consecutive-tiling predicate for a descriptor list: the descriptors
cover `[a, b)` back to back, and each one satisfies
`end = start + 16 + size` (8-byte tag plus 8-byte length header). -/
def tilesFrom : List ChunkData → Nat → Nat → Prop
  | [], a, b => a = b
  | c :: rest, a, b =>
      c.startPos = a ∧ c.endPos = c.startPos + 16 + c.size ∧ tilesFrom rest c.endPos b

/-- `ImageProcessor._process_block_data_chunk` (image_processor.py lines
105-153), with `offset` pointing at the begin-chunk payload: skip the
4-byte index, read the big-endian uncompressed size, skip width and
height, read the big-endian exists flag.  If the flag is positive, read a
big-endian then a little-endian 4-byte length, slice that many compressed
bytes (Python slicing clamps at the buffer end, as `take` does) and
inflate them; zlib is external, so inflation is a parameter returning
`none` exactly when `zlib.decompress` raises.  Any caught exception,
including a `struct.error` from reading past the buffer, yields the empty
byte string; an exists flag of zero yields `uncompressed_size` zero bytes
(`bytes(n)`). -/
def processBlockDataChunk (inflate : Bytes → Option Bytes) (buf : Bytes)
    (offset : Nat) : Bytes :=
  if offset + 20 ≤ buf.length then
    let uncompressedSize := readBE32 buf (offset + 4)
    let existFlag := readBE32 buf (offset + 16)
    if 0 < existFlag then
      if offset + 28 ≤ buf.length then
        let blockLen2 := readLE32 buf (offset + 24)
        match inflate ((buf.drop (offset + 28)).take blockLen2) with
        | some d => d
        | none => []
      else []
    else List.replicate uncompressedSize 0
  else []

/-- `blocks_per_row = int((image_height + 255) / 256)` in
`convert_external_data_to_image` (the ceiling of height/256). -/
def blocksPerRow (imageHeight : Nat) : Nat := (imageHeight + 255) / 256

/-- `blocks_per_column = int((image_width + 255) / 256)`. -/
def blocksPerColumn (imageWidth : Nat) : Nat := (imageWidth + 255) / 256

/-- numpy `hstack` on two arrays viewed as lists of rows: rows are glued
pairwise. -/
def hstack {γ : Type} (a b : List (List γ)) : List (List γ) :=
  List.zipWith (· ++ ·) a b

/-- The inner loop of `ImageProcessor._merge_blocks`: `temp_row` starts as
the first block of the grid row and each further block is `np.hstack`-ed
on. -/
def mergeRowBlocks {γ : Type} : List (List (List γ)) → List (List γ)
  | [] => []
  | b :: bs => bs.foldl hstack b

/-- The outer loop of `_merge_blocks`: `merged_image` starts as the first
stitched row and each further row is `np.vstack`-ed on (vstack of
row-lists is append). -/
def vstackAll {γ : Type} : List (List γ) → List γ
  | [] => []
  | r :: rs => rs.foldl (· ++ ·) r

/-- `ImageProcessor._merge_blocks` on a 2-dimensional grid of blocks. -/
def mergeBlocks {γ : Type} (grid : List (List (List (List γ)))) : List (List γ) :=
  vstackAll (grid.map mergeRowBlocks)

/-- `block = external_data_array[addr : addr + 256*320*4]` with
`addr = block_index * 256*320*4` (the fixed per-tile stride). -/
def tileSlice (data : Bytes) (i : Nat) : Bytes :=
  (data.drop (i * 327680)).take 327680

/-- `alpha_block = block[0 : 256*256]` reshaped to `(256, 256)`: row `r`
is the slice `[256*r, 256*r + 256)` of the alpha bytes. -/
def alphaTile (data : Bytes) (i : Nat) : List (List Nat) :=
  (List.range 256).map (fun r => (((tileSlice data i).take 65536).drop (256 * r)).take 256)

/-- `bgra_block = block[256*256 :]` reshaped to `(256, 256, 4)`: row `r`,
pixel `x` is the 4-byte slice at `1024*r + 4*x` of the BGRA bytes. -/
def bgraTile (data : Bytes) (i : Nat) : List (List (List Nat)) :=
  (List.range 256).map (fun r =>
    (List.range 256).map (fun x =>
      (((tileSlice data i).drop 65536).drop (1024 * r + 4 * x)).take 4))

/-- `ImageProcessor._external_data_to_image` (image_processor.py lines
228-273).  The Python loop fills `block_list[block_y][block_x]` with the
tile at `block_index = block_y * blocks_per_column + block_x` for every
index in `range(blocks_per_row * blocks_per_column)`; the grid below is
that net assignment.  Alpha and BGRA grids are stitched with
`_merge_blocks`, then `np.delete(bgra_image, 3, 2)` drops the fourth
channel of every pixel. -/
def externalDataToImage (data : Bytes) (bpr bpc : Nat) :
    List (List (List Nat)) × List (List Nat) :=
  let alphaImage := mergeBlocks ((List.range bpr).map (fun bi =>
    (List.range bpc).map (fun bx => alphaTile data (bi * bpc + bx))))
  let bgraImage := mergeBlocks ((List.range bpr).map (fun bi =>
    (List.range bpc).map (fun bx => bgraTile data (bi * bpc + bx))))
  let bgrImage := bgraImage.map (fun row => row.map (fun px => px.take 3))
  (bgrImage, alphaImage)

/-- The distinct error raised by `convert_external_data_to_image` on a
grayscale-sized payload (`ImageProcessingError("暂不支持灰度图像")`,
re-wrapped by the final `except` clause but still an exception). -/
inductive ImgErr where
  | unsupportedGray
deriving Repr, DecidableEq

/-- `ImageProcessor.convert_external_data_to_image` (image_processor.py
lines 178-225): a payload of exactly `padded_width * padded_height` bytes
raises the unsupported-grayscale error; any other length different from
`padded_width * padded_height * 5` logs a warning and returns
`(None, None)`; otherwise the tiles are stitched and both planes are
cropped to `[:image_height, :image_width]` (truncation from the
top-left). -/
def convertExternalDataToImage (data : Bytes) (imageWidth imageHeight : Nat) :
    Except ImgErr (Option (List (List (List Nat)) × List (List Nat))) :=
  let paddedWidth := blocksPerColumn imageWidth * 256
  let paddedHeight := blocksPerRow imageHeight * 256
  if data.length = paddedWidth * paddedHeight then .error .unsupportedGray
  else if data.length ≠ paddedWidth * paddedHeight * 5 then .ok none
  else
    let bgrImage := (externalDataToImage data (blocksPerRow imageHeight)
      (blocksPerColumn imageWidth)).1
    let alphaImage := (externalDataToImage data (blocksPerRow imageHeight)
      (blocksPerColumn imageWidth)).2
    .ok (some ((bgrImage.take imageHeight).map (fun row => row.take imageWidth),
      (alphaImage.take imageHeight).map (fun row => row.take imageWidth)))

/-- One row of the `Layer` table as `SqliteHandler._read_layers` reads it.
`LayerVisible`, `LayerOpacity`, `LayerBlendMode` and `LayerIndex` hold the
stored values for the case in which those optional columns exist in the
schema (`hasExtendedColumns = true` below); rows with SQL `NULL` in a
column are outside this model.  The carried-but-never-read columns
(`LayerUuid`, `LayerRenderThumbnail`, `LayerNextIndex`,
`LayerFirstChildIndex`) are omitted: no downstream code reads them. -/
structure LayerRow where
  MainId : Nat
  CanvasId : Nat
  LayerName : String
  LayerRenderMipmap : Nat
  LayerType : Nat
  LayerVisible : Nat
  LayerOpacity : Nat
  LayerBlendMode : Nat
  LayerIndex : Nat
deriving Repr, DecidableEq

/-- The per-layer dictionary built by `SqliteHandler._read_layers`
(sqlite_handler.py lines 120-136). -/
structure LayerRecord where
  main_id : Nat
  canvas_id : Nat
  layer_name : String
  layer_render_mipmap : Nat
  layer_type : Nat
  layer_visible : Nat
  layer_opacity : Nat
  layer_blend_mode : Nat
  layer_index : Nat
deriving Repr, DecidableEq

/-- Stable insertion step: place `a` before the first element whose key
is strictly larger, keeping earlier-listed elements first among equal
keys. -/
def insertSorted {α : Type} (key : α → Nat) (a : α) : List α → List α
  | [] => [a]
  | b :: bs => if key a ≤ key b then a :: b :: bs else b :: insertSorted key a bs

/-- Stable sort by a natural-number key.  Models both the SQL `ORDER BY`
of `_read_layers` and Python's stable `list.sort`. -/
def sortByKey {α : Type} (key : α → Nat) : List α → List α
  | [] => []
  | x :: xs => insertSorted key x (sortByKey key xs)

/-- `SqliteHandler._read_layers` (sqlite_handler.py lines 93-143).  With
the extended columns present, the query orders by
`CASE WHEN LayerIndex IS NOT NULL THEN LayerIndex ELSE MainId END` (plain
`LayerIndex` on the NULL-free snapshots modelled here) and the dictionary
copies the stored values.  Without them, the fallback query orders by
`MainId` and the dictionary fills the literal defaults of lines 131-134:
`layer_visible = 1`, `layer_opacity = 255`, `layer_blend_mode = 0`,
`layer_index = 0`. -/
def readLayers (hasExtendedColumns : Bool) (rows : List LayerRow) : List LayerRecord :=
  if hasExtendedColumns then
    (sortByKey (fun r => r.LayerIndex) rows).map (fun r =>
      ⟨r.MainId, r.CanvasId, r.LayerName, r.LayerRenderMipmap, r.LayerType,
        r.LayerVisible, r.LayerOpacity, r.LayerBlendMode, r.LayerIndex⟩)
  else
    (sortByKey (fun r => r.MainId) rows).map (fun r =>
      ⟨r.MainId, r.CanvasId, r.LayerName, r.LayerRenderMipmap, r.LayerType,
        1, 255, 0, 0⟩)

/-- A `Mipmap` table row (`_read_mipmap`). -/
structure MipmapRecord where
  main_id : Nat
  canvas_id : Nat
  layer_id : Nat
  mipmap_count : Nat
  base_mipmap_info : Nat
deriving Repr, DecidableEq

/-- A `MipmapInfo` table row (`_read_mipmap_info`). -/
structure MipmapInfoRecord where
  main_id : Nat
  canvas_id : Nat
  layer_id : Nat
  this_scale : Nat
  offscreen : Nat
  next_index : Nat
deriving Repr, DecidableEq

/-- An `Offscreen` table row (`_read_offscreen`); `block_data` is the
decoded reference string, kept as bytes. -/
structure OffscreenRecord where
  main_id : Nat
  canvas_id : Nat
  layer_id : Nat
  block_data : Bytes
deriving Repr, DecidableEq

/-- A `LayerThumbnail` table row (`_read_layer_thumbnails`). -/
structure LayerThumbnailRecord where
  main_id : Nat
  canvas_id : Nat
  layer_id : Nat
  thumbnail_canvas_width : Nat
  thumbnail_canvas_height : Nat
  thumbnail_offscreen : Nat
deriving Repr, DecidableEq

/-- The record lists a `SqliteHandler` holds after `_parse_sqlite_data`. -/
structure SqliteData where
  layer_list : List LayerRecord
  layer_thumbnail_list : List LayerThumbnailRecord
  offscreen_list : List OffscreenRecord
  mipmap_list : List MipmapRecord
  mipmap_info_list : List MipmapInfoRecord

/-- `CspConverter._get_external_id` (converter.py lines 125-182): the
four-hop chain Layer, Mipmap, MipmapInfo, Offscreen, each hop a linear
scan for a matching `main_id`, returning `None` as soon as a hop fails. -/
def getExternalId (db : SqliteData) (canvasId layerId : Nat) : Option Bytes :=
  match db.layer_list.find?
      (fun l => l.main_id == layerId && l.canvas_id == canvasId) with
  | none => none
  | some layer =>
    match db.mipmap_list.find? (fun m => m.main_id == layer.layer_render_mipmap) with
    | none => none
    | some mipmap =>
      match db.mipmap_info_list.find?
          (fun mi => mi.main_id == mipmap.base_mipmap_info) with
      | none => none
      | some mipmapInfo =>
        match db.offscreen_list.find?
            (fun osc => osc.main_id == mipmapInfo.offscreen) with
        | none => none
        | some offscreenData => some offscreenData.block_data

/-- `CspConverter._get_layer_thumbnail` (converter.py lines 184-193). -/
def getLayerThumbnail (db : SqliteData) (canvasId layerId : Nat) :
    Option LayerThumbnailRecord :=
  db.layer_thumbnail_list.find?
    (fun t => t.main_id == layerId && t.canvas_id == canvasId)

/-- `CspConverter._get_external_data` (converter.py lines 195-225): find
the matching chunk in `chunk_external_list`, then hand it to
`ImageProcessor.get_external_data_from_chunk`.  That sub-block walker is
an opaque parameter here — no claim constrains it beyond its
`Option` result (`None` models its caught-exception path). -/
def getExternalData (buf : Bytes) (cs : List ChunkData)
    (walker : Bytes → ChunkData → Option Bytes) (externalId : Bytes) : Option Bytes :=
  match findExternalChunk buf cs externalId with
  | none => none
  | some target => walker buf target

/-- A decoded BGRA bitmap: dimensions plus a pixel function (channel
order B,G,R,A — index 3 is alpha).  This is the function view of the
numpy `bgra_image` arrays flowing into `merge_layers_to_canvas`. -/
structure ImageF where
  height : Nat
  width : Nat
  pix : Nat → Nat → Fin 4 → Nat

/-- numpy's store of a nonnegative float64 into a uint8 array truncates
toward zero, i.e. takes the floor. -/
def ratToUint8 (q : ℚ) : Nat := ⌊q⌋₊

/-- The `np.concatenate([bgr_image, alpha[..., None]], 2)` step of
`get_layer_data` (converter.py lines 110-114): channels 0-2 come from the
cropped BGR plane, channel 3 from the cropped alpha plane.  Array
indexing becomes `getD` with the arrays' own defaults out of range. -/
def imageOfPlanes (bgr : List (List (List Nat))) (alpha : List (List Nat)) : ImageF :=
  ⟨bgr.length, (bgr.getD 0 []).length, fun y x c =>
    if (c : Nat) < 3 then ((bgr.getD y []).getD x []).getD c 0
    else (alpha.getD y []).getD x 0⟩

/-- `CspConverter.get_layer_data` (converter.py lines 70-123): external
id, thumbnail dimensions, external data, then
`convert_external_data_to_image`; every failure — including any exception
raised by the conversion, caught by the `except` clause at line 121 —
returns `None`. -/
def getLayerData (db : SqliteData) (buf : Bytes) (cs : List ChunkData)
    (walker : Bytes → ChunkData → Option Bytes) (canvasId layerId : Nat) :
    Option ImageF :=
  match getExternalId db canvasId layerId with
  | none => none
  | some externalId =>
    match getLayerThumbnail db canvasId layerId with
    | none => none
    | some thumb =>
      match getExternalData buf cs walker externalId with
      | none => none
      | some externalBytes =>
        match convertExternalDataToImage externalBytes
            thumb.thumbnail_canvas_width thumb.thumbnail_canvas_height with
        | .error _ => none
        | .ok none => none
        | .ok (some (bgr, alpha)) => some (imageOfPlanes bgr alpha)

/-- The per-layer opacity application of `_convert_merged_layers`
(converter.py lines 302-305): only when `layer_opacity < 255`, the alpha
channel is rescaled to `uint8(alpha * (opacity / 255.0))` (float64
multiply, truncating store), modelled as the exact
`alpha * opacity / 255` in natural division.  The float64 two-rounding
computation can truncate one lower (alpha 51 at opacity 155 stores 30
where the exact value is 31), so theorems use this definition only at
opacity 0 and 255, where the product is float-exact. -/
def applyLayerOpacity (opacity : Nat) (img : ImageF) : ImageF :=
  if opacity < 255 then
    { img with pix := fun y x c =>
        if c = (3 : Fin 4) then img.pix y x 3 * opacity / 255 else img.pix y x c }
  else img

/-- Placement origin of a layer on the canvas:
`max(0, (canvas_dim - layer_dim) // 2)` (Python floor division). -/
def startCoord (canvasDim layerDim : Nat) : Nat :=
  (max 0 (Int.fdiv ((canvasDim : Int) - (layerDim : Int)) 2)).toNat

/-- The per-layer body of `ImageProcessor.merge_layers_to_canvas`
(image_processor.py lines 318-350): compute the centered copy region,
alpha-blend the layer's top-left `copy_height x copy_width` crop over the
canvas region channel-wise (`alpha = layer_alpha / 255.0`), truncate each
blended float into the uint8 canvas, and set the region's alpha channel
to the pointwise integer maximum (`np.maximum` on the uint8 arrays, no
floats).  Pixels outside the region are untouched.  The color blend is
modelled in exact rational arithmetic; the program's five-rounding
float64 evaluation can truncate one lower (s=5, L=3, C=3 gives 2 where
the exact value is 3), so theorems use the color formula of this
definition only at blend weights 0 and 1, where float64 is exact. -/
def blendLayer (canvas : Nat → Nat → Fin 4 → Nat) (canvasHeight canvasWidth : Nat)
    (layer : ImageF) : Nat → Nat → Fin 4 → Nat :=
  let startY := startCoord canvasHeight layer.height
  let startX := startCoord canvasWidth layer.width
  let endY := min canvasHeight (startY + layer.height)
  let endX := min canvasWidth (startX + layer.width)
  fun y x c =>
    if startY ≤ y ∧ y < endY ∧ startX ≤ x ∧ x < endX then
      let alpha : ℚ := (layer.pix (y - startY) (x - startX) 3 : ℚ) / 255
      if c = (3 : Fin 4) then
        max (canvas y x 3) (layer.pix (y - startY) (x - startX) 3)
      else
        ratToUint8 (alpha * (layer.pix (y - startY) (x - startX) c : ℚ)
          + (1 - alpha) * (canvas y x c : ℚ))
    else canvas y x c

/-- `ImageProcessor.merge_layers_to_canvas` (image_processor.py lines
299-362) up to the final alpha-channel drop: a zero canvas folded over
the layer list, skipping every `None` layer. -/
def mergeLayersToCanvas (layersData : List (String × Option ImageF))
    (canvasWidth canvasHeight : Nat) : Nat → Nat → Fin 4 → Nat :=
  layersData.foldl (fun canvas pair =>
    match pair.2 with
    | none => canvas
    | some img => blendLayer canvas canvasHeight canvasWidth img)
    (fun _ _ _ => 0)

/-- The eligibility filter of `_convert_merged_layers` (converter.py
lines 266-285): drop layers whose `layer_visible` is 0 and layers of type
1 or 2. -/
def visibleLayers (layerList : List LayerRecord) : List LayerRecord :=
  layerList.filter
    (fun l => l.layer_visible ≠ 0 && l.layer_type ≠ 1 && l.layer_type ≠ 2)

/-- The z-order sort of `_convert_merged_layers` line 288: stable sort of
the visible layers by `x.get('layer_index', x.get('main_id', 0))`.  The
dictionaries built by `_read_layers` always carry the `layer_index` key,
so the `main_id` fallback of the `get` call never fires. -/
def sortVisibleLayers (layerList : List LayerRecord) : List LayerRecord :=
  sortByKey (fun l => l.layer_index) (visibleLayers layerList)

/-- A 50-byte container: valid magic, 16 reserved bytes, then a single
chunk whose declared big-endian payload length (100) overruns the 10
payload bytes actually present. -/
def overrunBuf : Bytes :=
  csfMagic ++ List.replicate 16 0 ++ chnkSQLi ++ [0, 0, 0, 0, 0, 0, 0, 100] ++
    List.replicate 10 0

/-- A 42-byte container: valid magic, 16 reserved bytes, one well-formed
chunk with a 2-byte payload ending exactly at the buffer end. -/
def validBuf : Bytes :=
  csfMagic ++ List.replicate 16 0 ++ chnkExta ++ [0, 0, 0, 0, 0, 0, 0, 2] ++ [7, 7]

/-- A payload of exactly `padded_width * padded_height` bytes for a 1x1
layer: the grayscale-sized case. -/
def grayBytes : Bytes := List.replicate 65536 0

/-- Chunk payload bytes holding the length-prefixed external id `[65]`. -/
def bufGray : Bytes := List.replicate 16 0 ++ [0, 0, 0, 0, 0, 0, 0, 1] ++ [65]

/-- An external-data chunk whose stored id (read from `bufGray`) is
`[65]`. -/
def chunkGray : ChunkData := ⟨chnkExta, 9, 0, 25⟩

/-- A four-chunk descriptor list whose `[1:-2]` slice is exactly
`[chunkGray]`. -/
def csGray : List ChunkData :=
  [⟨chnkSQLi, 0, 0, 16⟩, chunkGray, ⟨chnkSQLi, 0, 0, 16⟩, ⟨chnkSQLi, 0, 0, 16⟩]

/-- A metadata snapshot with one fully resolvable layer (id 2 on canvas
1) whose reference chain ends at block reference `[65]` and whose
thumbnail declares a 1x1 layer. -/
def dbGray : SqliteData :=
  ⟨[⟨2, 1, "layer", 3, 0, 1, 255, 0, 0⟩],
   [⟨2, 1, 2, 1, 1, 0⟩],
   [⟨5, 1, 2, [65]⟩],
   [⟨3, 1, 2, 1, 4⟩],
   [⟨4, 1, 2, 1, 5, 0⟩]⟩

/-- A sub-block walker that decodes every chunk to the grayscale-sized
payload. -/
def walkerGray : Bytes → ChunkData → Option Bytes := fun _ _ => some grayBytes

/-- A 1x1 layer bitmap with all four channels at 255. -/
def opaqueWhitePixel : ImageF := ⟨1, 1, fun _ _ _ => 255⟩

/-- The freshly zero-initialized canvas of `merge_layers_to_canvas`. -/
def zeroCanvas : Nat → Nat → Fin 4 → Nat := fun _ _ _ => 0

/-- A `Layer` table row with `MainId = 5` and stored `LayerIndex = 9`. -/
def rowFive : LayerRow := ⟨5, 1, "L5", 0, 0, 1, 255, 0, 9⟩

/-- An all-zero payload of the full expected size for a 300x100 layer
(2 tiles, stride 327680). -/
def data300 : Bytes := List.replicate 655360 0

/-- An all-zero payload of the full expected size for a 1x1 layer. -/
def data1 : Bytes := List.replicate 327680 0

/-- A three-chunk descriptor list whose only external-data chunk with
stored id `[65]` is the first chunk. -/
def cs10 : List ChunkData :=
  [chunkGray, ⟨chnkSQLi, 0, 0, 16⟩, ⟨chnkSQLi, 0, 0, 16⟩]

/-- A `Layer` table row with `MainId = 3`. -/
def rowThree : LayerRow := ⟨3, 1, "L3", 0, 0, 1, 255, 0, 4⟩

/-- A metadata snapshot with no records at all. -/
def dbEmpty : SqliteData := ⟨[], [], [], [], []⟩

/-- A 20-byte begin-chunk payload: index 0, uncompressed size 3, width
and height 0, exists flag 0. -/
def buf20 : Bytes :=
  [0, 0, 0, 0, 0, 0, 0, 3, 0, 0, 0, 0, 0, 0, 0, 0, 0, 0, 0, 0]

/-! Lemmas about the container scanner. -/

/-- One successful iteration of the chunk-scan loop (tag decodable). -/
lemma readChunks_cons (buf : Bytes) (off : Nat) (h1 : off < buf.length)
    (h2 : off + 16 ≤ buf.length)
    (h3 : isValidUtf8 ((buf.drop off).take 8) = true) :
    readChunks buf off =
      match readChunks buf (off + 16 + readBE64 buf (off + 8)) with
      | .ok rest => .ok (⟨(buf.drop off).take 8, readBE64 buf (off + 8), off,
          off + 16 + readBE64 buf (off + 8)⟩ :: rest)
      | .error e => .error e := by
  rw [readChunks.eq_def]
  simp [h1, h2, h3]

/-- A chunk tag that does not decode as UTF-8 is a fatal error
(`UnicodeDecodeError`, re-raised as `InvalidFileError`). -/
lemma readChunks_badTag (buf : Bytes) (off : Nat) (h1 : off < buf.length)
    (h2 : off + 16 ≤ buf.length)
    (h3 : isValidUtf8 ((buf.drop off).take 8) = false) :
    readChunks buf off = .error .invalidFile := by
  rw [readChunks.eq_def]
  simp [h1, h2, h3]

/-- The scan loop exits as soon as the offset reaches the buffer end. -/
lemma readChunks_stop (buf : Bytes) (off : Nat) (h : buf.length ≤ off) :
    readChunks buf off = .ok [] := by
  rw [readChunks.eq_def]
  simp [Nat.not_lt.mpr h]

/-- A chunk header truncated to fewer than 16 bytes is a fatal error. -/
lemma readChunks_truncated (buf : Bytes) (off : Nat) (h1 : off < buf.length)
    (h2 : buf.length < off + 16) :
    readChunks buf off = .error .invalidFile := by
  rw [readChunks.eq_def]
  simp [h1, Nat.not_le.mpr h2]

/-- An overrunning declared payload length ends the scan with the
overrunning descriptor recorded, not with an error. -/
lemma readChunks_overrun (buf : Bytes) (off : Nat) (h1 : off < buf.length)
    (h2 : off + 16 ≤ buf.length)
    (hv : isValidUtf8 ((buf.drop off).take 8) = true)
    (h3 : buf.length < off + 16 + readBE64 buf (off + 8)) :
    readChunks buf off = .ok [⟨(buf.drop off).take 8, readBE64 buf (off + 8), off,
      off + 16 + readBE64 buf (off + 8)⟩] := by
  rw [readChunks_cons buf off h1 h2 hv, readChunks_stop buf _ (by omega)]

/-- Every descriptor list the scan accepts whose entries stay inside the
buffer tiles `[off, buffer_end)` consecutively. -/
lemma readChunks_tiles (buf : Bytes) : ∀ (off : Nat) (cs : List ChunkData),
    readChunks buf off = .ok cs → (∀ c ∈ cs, c.endPos ≤ buf.length) →
    off ≤ buf.length → tilesFrom cs off buf.length := by
  refine readChunks.induct buf
    (fun off => ∀ cs, readChunks buf off = .ok cs →
      (∀ c ∈ cs, c.endPos ≤ buf.length) → off ≤ buf.length →
      tilesFrom cs off buf.length) ?_ ?_ ?_ ?_ ?_
  · intro x hx h16 ctype hv csize rest hrec ih cs h hend hoff
    replace hv : isValidUtf8 ((buf.drop x).take 8) = true := hv
    replace hrec : readChunks buf (x + 16 + readBE64 buf (x + 8)) = .ok rest := hrec
    replace ih : ∀ cs, readChunks buf (x + 16 + readBE64 buf (x + 8)) = .ok cs →
      (∀ c ∈ cs, c.endPos ≤ buf.length) →
      x + 16 + readBE64 buf (x + 8) ≤ buf.length →
      tilesFrom cs (x + 16 + readBE64 buf (x + 8)) buf.length := ih
    rw [readChunks_cons buf x hx h16 hv, hrec] at h
    obtain rfl : (⟨(buf.drop x).take 8, readBE64 buf (x + 8), x,
        x + 16 + readBE64 buf (x + 8)⟩ : ChunkData) :: rest = cs := by
      exact (Except.ok.injEq _ _).mp h
    refine ⟨rfl, rfl, ?_⟩
    have hmem : (⟨(buf.drop x).take 8, readBE64 buf (x + 8), x,
        x + 16 + readBE64 buf (x + 8)⟩ : ChunkData) ∈
        (⟨(buf.drop x).take 8, readBE64 buf (x + 8), x,
        x + 16 + readBE64 buf (x + 8)⟩ : ChunkData) :: rest := List.mem_cons_self _ _
    exact ih rest hrec (fun c hc => hend c (List.mem_cons_of_mem _ hc))
      (hend _ hmem)
  · intro x hx h16 ctype hv csize e hrec ih cs h hend hoff
    replace hv : isValidUtf8 ((buf.drop x).take 8) = true := hv
    replace hrec : readChunks buf (x + 16 + readBE64 buf (x + 8)) = .error e := hrec
    rw [readChunks_cons buf x hx h16 hv, hrec] at h
    exact absurd h (by simp)
  · intro x hx h16 ctype hv cs h hend hoff
    replace hv : ¬ isValidUtf8 ((buf.drop x).take 8) = true := hv
    rw [readChunks_badTag buf x hx h16 (Bool.not_eq_true _ ▸ hv)] at h
    exact absurd h (by simp)
  · intro x hx h16 cs h hend hoff
    rw [readChunks_truncated buf x hx (by omega)] at h
    exact absurd h (by simp)
  · intro x hx cs h hend hoff
    rw [readChunks_stop buf x (by omega)] at h
    obtain rfl : ([] : List ChunkData) = cs := (Except.ok.injEq _ _).mp h
    show x = buf.length
    omega

/-- C1, counterexample: `overrunBuf` passes the magic-prefix check, its
single chunk carries a decodable ASCII tag and declares a payload length
running 90 bytes past the 50-byte buffer, yet the scan returns the
over-running descriptor list instead of failing. -/
theorem claim_C1_counterexample :
    readChunkData overrunBuf = .ok [⟨chnkSQLi, 100, 24, 140⟩] ∧
    overrunBuf.length = 50 ∧ (∀ e, readChunkData overrunBuf ≠ .error e) := by
  have h : readChunks overrunBuf 24 = .ok [⟨(overrunBuf.drop 24).take 8,
      readBE64 overrunBuf 32, 24, 24 + 16 + readBE64 overrunBuf 32⟩] :=
    readChunks_overrun overrunBuf 24 (by decide) (by decide) (by decide) (by decide)
  have hscan : readChunkData overrunBuf = .ok [⟨chnkSQLi, 100, 24, 140⟩] := by
    rw [readChunkData, if_pos (by decide), h]
    simp only [Except.ok.injEq]
    decide
  exact ⟨hscan, by decide, fun e he => by rw [hscan] at he; cases he⟩

/-- C1, amended: when a chunk whose 8-byte tag decodes (is valid UTF-8)
declares a big-endian payload length that would advance the scan position
past the end of the buffer, the scan does not fail — it records that
over-running descriptor, stops, and returns the descriptor list.  (The
loop's fatal errors are a truncated 16-byte chunk header,
`readChunks_truncated`, and an undecodable tag, `readChunks_badTag`; an
overrun as such is never one.) -/
theorem claim_C1_amended : ∀ (buf : Bytes) (off : Nat),
    (off < buf.length → off + 16 ≤ buf.length →
      isValidUtf8 ((buf.drop off).take 8) = true →
      buf.length < off + 16 + readBE64 buf (off + 8) →
      readChunks buf off = .ok [⟨(buf.drop off).take 8, readBE64 buf (off + 8), off,
        off + 16 + readBE64 buf (off + 8)⟩]) ∧
    (buf.take 8 = csfMagic → 8 ≤ buf.length → 24 < buf.length →
      24 + 16 ≤ buf.length → isValidUtf8 ((buf.drop 24).take 8) = true →
      buf.length < 24 + 16 + readBE64 buf 32 →
      readChunkData buf = .ok [⟨(buf.drop 24).take 8, readBE64 buf 32, 24,
        24 + 16 + readBE64 buf 32⟩]) := by
  intro buf off
  constructor
  · intro h1 h2 hv h3
    exact readChunks_overrun buf off h1 h2 hv h3
  · intro hm h8 h1 h2 hv h3
    rw [readChunkData, if_pos ⟨h8, hm⟩]
    have : (32 : Nat) = 24 + 8 := by norm_num
    rw [this] at h3 ⊢
    exact readChunks_overrun buf 24 h1 h2 hv h3

/-- C1, witness for the amended claim at the concrete buffer
`overrunBuf`. -/
theorem claim_C1_witness :
    readChunkData overrunBuf = .ok [⟨(overrunBuf.drop 24).take 8,
      readBE64 overrunBuf 32, 24, 24 + 16 + readBE64 overrunBuf 32⟩] :=
  (claim_C1_amended overrunBuf 24).2 (by decide) (by decide) (by decide)
    (by decide) (by decide) (by decide)

/-- C2: every descriptor list accepted by the scan whose entries stay
inside the buffer satisfies `end = start + 16 + size` on each descriptor
and tiles `[24, buffer_end)` consecutively — no overlap, no gap. -/
theorem claim_C2 : ∀ (buf : Bytes) (cs : List ChunkData),
    readChunkData buf = .ok cs → 24 ≤ buf.length →
    (∀ c ∈ cs, c.endPos ≤ buf.length) →
    tilesFrom cs 24 buf.length := by
  intro buf cs h h24 hend
  rw [readChunkData] at h
  by_cases hm : 8 ≤ buf.length ∧ buf.take 8 = csfMagic
  · rw [if_pos hm] at h
    exact readChunks_tiles buf 24 cs h hend h24
  · rw [if_neg hm] at h
    cases h

/-- C2, witness: the well-formed container `validBuf` scans to a single
descriptor tiling `[24, 42)`. -/
theorem claim_C2_witness :
    readChunkData validBuf = .ok [⟨chnkExta, 2, 24, 42⟩] ∧
    tilesFrom [⟨chnkExta, 2, 24, 42⟩] 24 validBuf.length := by
  have h42 : readChunks validBuf 42 = .ok [] := readChunks_stop _ _ (by decide)
  have hoff : 24 + 16 + readBE64 validBuf 32 = 42 := by decide
  have hscan : readChunkData validBuf = .ok [⟨chnkExta, 2, 24, 42⟩] := by
    rw [readChunkData, if_pos (by decide),
      readChunks_cons validBuf 24 (by decide) (by decide) (by decide), hoff, h42]
    simp only [Except.ok.injEq]
    decide
  exact ⟨hscan, claim_C2 validBuf _ hscan (by decide) (by decide)⟩

/-! Lemmas about per-layer failure handling. -/

/-- Merging skips a `None` layer entry: the canvas fold is unchanged and
the remaining layers are still processed. -/
lemma mergeLayersToCanvas_skip (pre post : List (String × Option ImageF))
    (name : String) (canvasWidth canvasHeight : Nat) :
    mergeLayersToCanvas (pre ++ (name, none) :: post) canvasWidth canvasHeight =
      mergeLayersToCanvas (pre ++ post) canvasWidth canvasHeight := by
  unfold mergeLayersToCanvas
  rw [List.foldl_append, List.foldl_append, List.foldl_cons]

/-- The chunk searched for a layer's pixel data is looked up only in
`chunk_data_list[1:-2]`: a matching chunk sitting at index 0 or in the
last two positions is never found. -/
lemma findExternalChunk_none (buf : Bytes) (cs : List ChunkData) (extId : Bytes)
    (h : ∀ i (hi : i < cs.length), (cs.get ⟨i, hi⟩).ctype = chnkExta →
      getExternalIdFromChunk buf (cs.get ⟨i, hi⟩) = extId →
      i = 0 ∨ cs.length ≤ i + 2) :
    findExternalChunk buf cs extId = none := by
  rw [findExternalChunk]
  apply List.find?_eq_none.mpr
  intro c hc
  rw [chunkExternalList] at hc
  obtain ⟨⟨j, hj⟩, hcj⟩ := List.mem_iff_get.mp hc
  have hj3 : j < cs.length - 3 := by
    have hl := hj
    simp only [List.length_take, List.length_drop] at hl
    omega
  have hj1 : 1 + j < cs.length := by omega
  have hsome : cs[1 + j]? = some c := by
    have h1 : ((cs.drop 1).take (cs.length - 3))[j]? = some c := by
      rw [List.getElem?_eq_getElem hj]
      exact congrArg some hcj
    rw [List.getElem?_take, if_pos hj3, List.getElem?_drop] at h1
    exact h1
  have hceq : cs.get ⟨1 + j, hj1⟩ = c := by
    rw [List.getElem?_eq_getElem hj1] at hsome
    simpa using hsome
  intro hpc
  simp only [decide_eq_true_eq] at hpc
  obtain ⟨hty, hid⟩ := hpc
  have hcase := h (1 + j) hj1 (by rw [hceq]; exact hty) (by rw [hceq]; exact hid)
  omega

/-- C10: the per-layer pixel-data lookup searches only
`chunk_data_list[1:-2]`.  A matching external-data chunk at index 0 or in
the last two positions is never found; the external data then resolves to
`None`, `get_layer_data` yields `None` for that layer, and merging simply
skips the `None` entry while processing the remaining layers. -/
theorem claim_C10 : ∀ (buf : Bytes) (cs : List ChunkData) (extId : Bytes),
    (∀ i (hi : i < cs.length), (cs.get ⟨i, hi⟩).ctype = chnkExta →
      getExternalIdFromChunk buf (cs.get ⟨i, hi⟩) = extId →
      i = 0 ∨ cs.length ≤ i + 2) →
    findExternalChunk buf cs extId = none ∧
    (∀ walker, getExternalData buf cs walker extId = none) ∧
    (∀ db walker canvasId layerId,
      getExternalId db canvasId layerId = some extId →
      getLayerData db buf cs walker canvasId layerId = none) ∧
    (∀ pre post name canvasWidth canvasHeight,
      mergeLayersToCanvas (pre ++ (name, none) :: post) canvasWidth canvasHeight =
        mergeLayersToCanvas (pre ++ post) canvasWidth canvasHeight) := by
  intro buf cs extId h
  have hfind : findExternalChunk buf cs extId = none :=
    findExternalChunk_none buf cs extId h
  have hdata : ∀ walker, getExternalData buf cs walker extId = none := by
    intro walker
    rw [getExternalData, hfind]
  refine ⟨hfind, hdata, ?_, ?_⟩
  · intro db walker canvasId layerId hid
    simp only [getLayerData, hid]
    cases hthumb : getLayerThumbnail db canvasId layerId with
    | none => rfl
    | some thumb => simp only [hdata walker]
  · intro pre post name canvasWidth canvasHeight
    exact mergeLayersToCanvas_skip pre post name canvasWidth canvasHeight

/-- C10, witness: in the three-chunk list `cs10` the only chunk carrying
id `[65]` is the first one, so the lookup fails. -/
theorem claim_C10_witness :
    findExternalChunk bufGray cs10 [65] = none ∧
    getExternalData bufGray cs10 walkerGray [65] = none := by
  obtain ⟨h1, h2, _, _⟩ := claim_C10 bufGray cs10 [65] (by decide)
  exact ⟨h1, h2 walkerGray⟩

/-- C7: `_get_external_id` walks Layer, Mipmap, MipmapInfo, Offscreen and
returns `None` (not an error) whenever any hop fails to resolve; a layer
whose data comes back `None` is omitted from the canvas fold while the
remaining layers are still merged. -/
theorem claim_C7 : ∀ (db : SqliteData) (canvasId layerId : Nat),
    (db.layer_list.find?
        (fun l => l.main_id == layerId && l.canvas_id == canvasId) = none →
      getExternalId db canvasId layerId = none) ∧
    (∀ layer, db.layer_list.find?
        (fun l => l.main_id == layerId && l.canvas_id == canvasId) = some layer →
      db.mipmap_list.find? (fun m => m.main_id == layer.layer_render_mipmap) = none →
      getExternalId db canvasId layerId = none) ∧
    (∀ layer mipmap, db.layer_list.find?
        (fun l => l.main_id == layerId && l.canvas_id == canvasId) = some layer →
      db.mipmap_list.find?
        (fun m => m.main_id == layer.layer_render_mipmap) = some mipmap →
      db.mipmap_info_list.find?
        (fun mi => mi.main_id == mipmap.base_mipmap_info) = none →
      getExternalId db canvasId layerId = none) ∧
    (∀ layer mipmap mipmapInfo, db.layer_list.find?
        (fun l => l.main_id == layerId && l.canvas_id == canvasId) = some layer →
      db.mipmap_list.find?
        (fun m => m.main_id == layer.layer_render_mipmap) = some mipmap →
      db.mipmap_info_list.find?
        (fun mi => mi.main_id == mipmap.base_mipmap_info) = some mipmapInfo →
      db.offscreen_list.find?
        (fun osc => osc.main_id == mipmapInfo.offscreen) = none →
      getExternalId db canvasId layerId = none) ∧
    (∀ buf cs walker, getExternalId db canvasId layerId = none →
      getLayerData db buf cs walker canvasId layerId = none) ∧
    (∀ pre post name canvasWidth canvasHeight,
      mergeLayersToCanvas (pre ++ (name, none) :: post) canvasWidth canvasHeight =
        mergeLayersToCanvas (pre ++ post) canvasWidth canvasHeight) := by
  intro db canvasId layerId
  refine ⟨?_, ?_, ?_, ?_, ?_, ?_⟩
  · intro h1
    simp only [getExternalId, h1]
  · intro layer h1 h2
    simp only [getExternalId, h1, h2]
  · intro layer mipmap h1 h2 h3
    simp only [getExternalId, h1, h2, h3]
  · intro layer mipmap mipmapInfo h1 h2 h3 h4
    simp only [getExternalId, h1, h2, h3, h4]
  · intro buf cs walker hnone
    simp only [getLayerData, hnone]
  · intro pre post name canvasWidth canvasHeight
    exact mergeLayersToCanvas_skip pre post name canvasWidth canvasHeight

/-- C7, witness: on the empty snapshot the first hop fails, the external
id is `None`, the layer's data is `None`, and a `None` entry leaves the
merge of the remaining (here: one) layers untouched. -/
theorem claim_C7_witness :
    getExternalId dbEmpty 1 2 = none ∧
    getLayerData dbEmpty bufGray csGray walkerGray 1 2 = none ∧
    mergeLayersToCanvas [("a", none), ("b", some opaqueWhitePixel)] 1 1 =
      mergeLayersToCanvas [("b", some opaqueWhitePixel)] 1 1 := by
  obtain ⟨h1, _, _, _, h5, h6⟩ := claim_C7 dbEmpty 1 2
  have hid : getExternalId dbEmpty 1 2 = none := h1 (by decide)
  exact ⟨hid, h5 bufGray csGray walkerGray hid,
    h6 [] [("b", some opaqueWhitePixel)] "a" 1 1⟩

/-! Lemmas about pixel-format handling in the reconstruction stage. -/

/-- A payload of exactly `padded_width * padded_height` bytes raises the
distinct unsupported-grayscale error. -/
lemma convert_gray (data : Bytes) (w h : Nat)
    (hl : data.length = blocksPerColumn w * 256 * (blocksPerRow h * 256)) :
    convertExternalDataToImage data w h = .error .unsupportedGray := by
  simp only [convertExternalDataToImage]
  rw [if_pos hl]

/-- Any payload length that is neither the grayscale size nor the full
5-bytes-per-pixel size yields `(None, None)` for that layer. -/
lemma convert_mismatch (data : Bytes) (w h : Nat)
    (h1 : data.length ≠ blocksPerColumn w * 256 * (blocksPerRow h * 256))
    (h2 : data.length ≠ blocksPerColumn w * 256 * (blocksPerRow h * 256) * 5) :
    convertExternalDataToImage data w h = .ok none := by
  simp only [convertExternalDataToImage]
  rw [if_neg h1, if_pos h2]

/-- When every lookup stage succeeds but the reconstruction raises, the
`except` clause of `get_layer_data` turns the exception into `None`. -/
lemma getLayerData_none_of_error (db : SqliteData) (buf : Bytes) (cs : List ChunkData)
    (walker : Bytes → ChunkData → Option Bytes) (canvasId layerId : Nat)
    (extId : Bytes) (thumb : LayerThumbnailRecord) (data : Bytes) (e : ImgErr)
    (h1 : getExternalId db canvasId layerId = some extId)
    (h2 : getLayerThumbnail db canvasId layerId = some thumb)
    (h3 : getExternalData buf cs walker extId = some data)
    (hconv : convertExternalDataToImage data thumb.thumbnail_canvas_width
      thumb.thumbnail_canvas_height = .error e) :
    getLayerData db buf cs walker canvasId layerId = none := by
  simp only [getLayerData, h1, h2, h3, hconv]

/-- C6, counterexample to fatality: the grayscale-sized payload makes the
reconstruction raise the distinct unsupported-grayscale error, but
`get_layer_data` catches every exception and returns `None` — the run is
not aborted, the layer is skipped like any other per-layer failure. -/
theorem claim_C6_counterexample :
    convertExternalDataToImage grayBytes 1 1 = .error .unsupportedGray ∧
    getLayerData dbGray bufGray csGray walkerGray 1 2 = none ∧
    mergeLayersToCanvas [("layer", none), ("rest", some opaqueWhitePixel)] 1 1 =
      mergeLayersToCanvas [("rest", some opaqueWhitePixel)] 1 1 := by
  have hlen : grayBytes.length = blocksPerColumn 1 * 256 * (blocksPerRow 1 * 256) := by
    rw [grayBytes, List.length_replicate]
    norm_num [blocksPerColumn, blocksPerRow]
  have hconv : convertExternalDataToImage grayBytes 1 1 = .error .unsupportedGray :=
    convert_gray grayBytes 1 1 hlen
  have hdata : getExternalData bufGray csGray walkerGray [65] = some grayBytes := by
    simp only [getExternalData]
    rw [show findExternalChunk bufGray csGray [65] = some chunkGray from by decide]
    rfl
  have hlayer : getLayerData dbGray bufGray csGray walkerGray 1 2 = none :=
    getLayerData_none_of_error dbGray bufGray csGray walkerGray 1 2 [65]
      ⟨2, 1, 2, 1, 1, 0⟩ grayBytes .unsupportedGray (by decide) (by decide) hdata hconv
  exact ⟨hconv, hlayer,
    mergeLayersToCanvas_skip [] [("rest", some opaqueWhitePixel)] "layer" 1 1⟩

/-- C6, amended: a payload of exactly `padded_width * padded_height`
bytes (grayscale-only size) makes the reconstruction raise the distinct
unsupported-grayscale error; the orchestrator's per-layer exception
handler converts it into a `None` result, so only that layer is skipped —
it is not fatal for the run.  Any other size different from
`padded_width * padded_height * 5` yields `None` non-fatally as the claim
states. -/
theorem claim_C6_amended : ∀ (data : Bytes) (w h : Nat),
    (data.length = blocksPerColumn w * 256 * (blocksPerRow h * 256) →
      convertExternalDataToImage data w h = .error .unsupportedGray) ∧
    (data.length ≠ blocksPerColumn w * 256 * (blocksPerRow h * 256) →
      data.length ≠ blocksPerColumn w * 256 * (blocksPerRow h * 256) * 5 →
      convertExternalDataToImage data w h = .ok none) ∧
    (∀ db buf cs walker canvasId layerId extId thumb,
      getExternalId db canvasId layerId = some extId →
      getLayerThumbnail db canvasId layerId = some thumb →
      getExternalData buf cs walker extId = some data →
      data.length = blocksPerColumn thumb.thumbnail_canvas_width * 256 *
        (blocksPerRow thumb.thumbnail_canvas_height * 256) →
      getLayerData db buf cs walker canvasId layerId = none) := by
  intro data w h
  refine ⟨convert_gray data w h, convert_mismatch data w h, ?_⟩
  intro db buf cs walker canvasId layerId extId thumb hh1 hh2 hh3 hlen
  exact getLayerData_none_of_error db buf cs walker canvasId layerId extId thumb data
    .unsupportedGray hh1 hh2 hh3 (convert_gray data _ _ hlen)

/-- C6, witness for the amended claim at the concrete grayscale-sized
payload and the concrete resolvable container. -/
theorem claim_C6_witness :
    convertExternalDataToImage grayBytes 1 1 = .error .unsupportedGray ∧
    convertExternalDataToImage [0] 1 1 = .ok none := by
  obtain ⟨h1, h2, _⟩ := claim_C6_amended grayBytes 1 1
  obtain ⟨_, h4, _⟩ := claim_C6_amended [0] 1 1
  refine ⟨h1 ?_, h4 ?_ ?_⟩
  · rw [grayBytes, List.length_replicate]
    norm_num [blocksPerColumn, blocksPerRow]
  · decide
  · decide

/-! Lemmas about the alpha blender. -/

/-- A layer of exactly the canvas dimension starts at offset 0:
`max(0, (n - n) // 2) = 0`. -/
lemma startCoord_self (n : Nat) : startCoord n n = 0 := by
  have h : Int.fdiv ((n : Int) - (n : Int)) 2 = 0 := by
    rw [sub_self]
    decide
  simp [startCoord, h]

/-- Inside the copy region of a layer with the canvas dimensions, the
blend computes the documented per-channel formula on the layer's own
pixel. -/
lemma blendLayer_pix (canvas : Nat → Nat → Fin 4 → Nat) (H W : Nat)
    (layer : ImageF) (hH : layer.height = H) (hW : layer.width = W)
    (y x : Nat) (hy : y < H) (hx : x < W) (c : Fin 4) :
    blendLayer canvas H W layer y x c =
      if c = (3 : Fin 4) then max (canvas y x 3) (layer.pix y x 3)
      else ratToUint8 ((layer.pix y x 3 : ℚ) / 255 * (layer.pix y x c : ℚ)
        + (1 - (layer.pix y x 3 : ℚ) / 255) * (canvas y x c : ℚ)) := by
  unfold blendLayer
  rw [hH, hW, startCoord_self, startCoord_self]
  simp only [Nat.zero_add, Nat.min_self, Nat.sub_zero]
  rw [if_pos ⟨Nat.zero_le y, hy, Nat.zero_le x, hx⟩]

/-- The exact rational source-over formula with truncating uint8 store
equals a single natural division. -/
lemma ratToUint8_blend (s L C : Nat) (hs : s ≤ 255) :
    ratToUint8 ((s : ℚ) / 255 * (L : ℚ) + (1 - (s : ℚ) / 255) * (C : ℚ)) =
      (s * L + (255 - s) * C) / 255 := by
  have hcast : ((s : ℚ) / 255 * (L : ℚ) + (1 - (s : ℚ) / 255) * (C : ℚ)) =
      ((s * L + (255 - s) * C : Nat) : ℚ) / ((255 : Nat) : ℚ) := by
    push_cast [Nat.cast_sub hs]
    field_simp
  rw [ratToUint8, hcast, Nat.floor_div_nat, Nat.floor_natCast]

/-- `applyLayerOpacity` keeps the bitmap dimensions. -/
lemma applyLayerOpacity_height (opacity : Nat) (img : ImageF) :
    (applyLayerOpacity opacity img).height = img.height := by
  unfold applyLayerOpacity
  split <;> rfl

lemma applyLayerOpacity_width (opacity : Nat) (img : ImageF) :
    (applyLayerOpacity opacity img).width = img.width := by
  unfold applyLayerOpacity
  split <;> rfl

/-- `applyLayerOpacity` keeps the color channels. -/
lemma applyLayerOpacity_pix_color (opacity : Nat) (img : ImageF) (y x : Nat)
    (c : Fin 4) (hc : ¬ c = (3 : Fin 4)) :
    (applyLayerOpacity opacity img).pix y x c = img.pix y x c := by
  unfold applyLayerOpacity
  split
  · simp only [if_neg hc]
  · rfl

/-- The alpha channel after the opacity step: rescaled only when
`opacity < 255`. -/
lemma applyLayerOpacity_pix_alpha (opacity : Nat) (img : ImageF) (y x : Nat) :
    (applyLayerOpacity opacity img).pix y x 3 =
      if opacity < 255 then img.pix y x 3 * opacity / 255 else img.pix y x 3 := by
  unfold applyLayerOpacity
  split
  · rfl
  · rfl

/-- C4, amended: the orchestrator rescales the alpha channel by a float64
multiply with `opacity / 255.0` and a truncating uint8 store when
`opacity < 255`, and the blend weight is that stored alpha over 255 in
float64, so the claim's exact real-arithmetic formula does not hold
universally of the program.  It holds exactly in the float-exact cases:
at opacity 255 the canvas alpha is updated to
`max(canvas_alpha, layer_alpha_channel)` (integer `np.maximum`), a pixel
with alpha 255 writes the layer color and a pixel with alpha 0 keeps the
canvas color — the claimed formula at weights 1 and 0 — and at opacity 0
every channel of the canvas, alpha included, is left unchanged (not
max-ed with the raw layer alpha, as the counterexample shows). -/
theorem claim_C4_amended :
    ∀ (canvas : Nat → Nat → Fin 4 → Nat) (layer : ImageF) (H W y x : Nat),
    layer.height = H → layer.width = W → y < H → x < W →
    (blendLayer canvas H W (applyLayerOpacity 255 layer) y x 3 =
      max (canvas y x 3) (layer.pix y x 3)) ∧
    (∀ c : Fin 4, ¬ c = (3 : Fin 4) → layer.pix y x 3 = 255 →
      blendLayer canvas H W (applyLayerOpacity 255 layer) y x c =
        layer.pix y x c) ∧
    (∀ c : Fin 4, ¬ c = (3 : Fin 4) → layer.pix y x 3 = 0 →
      blendLayer canvas H W (applyLayerOpacity 255 layer) y x c =
        canvas y x c) ∧
    (blendLayer canvas H W (applyLayerOpacity 0 layer) y x 3 = canvas y x 3) ∧
    (∀ c : Fin 4, ¬ c = (3 : Fin 4) →
      blendLayer canvas H W (applyLayerOpacity 0 layer) y x c = canvas y x c) := by
  intro canvas layer H W y x hH hW hy hx
  have hid : applyLayerOpacity 255 layer = layer := by
    unfold applyLayerOpacity
    rw [if_neg (by omega)]
  have hpix255 := blendLayer_pix canvas H W (applyLayerOpacity 255 layer)
    ((applyLayerOpacity_height 255 layer).trans hH)
    ((applyLayerOpacity_width 255 layer).trans hW) y x hy hx
  have hpix0 := blendLayer_pix canvas H W (applyLayerOpacity 0 layer)
    ((applyLayerOpacity_height 0 layer).trans hH)
    ((applyLayerOpacity_width 0 layer).trans hW) y x hy hx
  have halpha0 : (applyLayerOpacity 0 layer).pix y x 3 = 0 := by
    rw [applyLayerOpacity_pix_alpha 0 layer y x, if_pos (by omega)]
    simp
  refine ⟨?_, ?_, ?_, ?_, ?_⟩
  · rw [hpix255 3, if_pos rfl, hid]
  · intro c hc ha
    rw [hpix255 c, if_neg hc, hid, ha]
    have hq : ((255 : Nat) : ℚ) / 255 * (layer.pix y x c : ℚ) +
        (1 - ((255 : Nat) : ℚ) / 255) * (canvas y x c : ℚ) =
        ((layer.pix y x c : Nat) : ℚ) := by
      norm_num
    rw [hq, ratToUint8, Nat.floor_natCast]
  · intro c hc ha
    rw [hpix255 c, if_neg hc, hid, ha]
    have hq : ((0 : Nat) : ℚ) / 255 * (layer.pix y x c : ℚ) +
        (1 - ((0 : Nat) : ℚ) / 255) * (canvas y x c : ℚ) =
        ((canvas y x c : Nat) : ℚ) := by
      norm_num
    rw [hq, ratToUint8, Nat.floor_natCast]
  · rw [hpix0 3, if_pos rfl, halpha0]
    exact Nat.max_eq_left (Nat.zero_le _)
  · intro c hc
    rw [hpix0 c, if_neg hc, halpha0,
      applyLayerOpacity_pix_color 0 layer y x c hc]
    have hq : ((0 : Nat) : ℚ) / 255 * (layer.pix y x c : ℚ) +
        (1 - ((0 : Nat) : ℚ) / 255) * (canvas y x c : ℚ) =
        ((canvas y x c : Nat) : ℚ) := by
      norm_num
    rw [hq, ratToUint8, Nat.floor_natCast]

/-- C4, counterexample: a fully opaque 1x1 layer at opacity 0 leaves the
canvas alpha at 0, whereas the claim's
`max(canvas_alpha, layer_alpha_channel)` would give 255.  This is a
float-exact case: the rescale multiplies by exactly `0.0`, so the
program agrees with the model here. -/
theorem claim_C4_counterexample :
    blendLayer zeroCanvas 1 1 (applyLayerOpacity 0 opaqueWhitePixel) 0 0 3 = 0 ∧
    max (zeroCanvas 0 0 3) (opaqueWhitePixel.pix 0 0 3) = 255 := by
  constructor
  · have h := blendLayer_pix zeroCanvas 1 1 (applyLayerOpacity 0 opaqueWhitePixel)
      rfl rfl 0 0 (by decide) (by decide) 3
    rw [h, if_pos rfl, applyLayerOpacity_pix_alpha 0 opaqueWhitePixel 0 0]
    decide
  · decide

/-- C4, witness for the amended claim on a fully opaque white pixel over
a zero canvas, at opacity 255 and at opacity 0. -/
theorem claim_C4_witness :
    blendLayer zeroCanvas 1 1 (applyLayerOpacity 255 opaqueWhitePixel) 0 0 3 = 255 ∧
    blendLayer zeroCanvas 1 1 (applyLayerOpacity 0 opaqueWhitePixel) 0 0 3 = 0 ∧
    blendLayer zeroCanvas 1 1 (applyLayerOpacity 255 opaqueWhitePixel) 0 0 0 = 255 := by
  obtain ⟨h1, h2, -, h4, -⟩ := claim_C4_amended zeroCanvas opaqueWhitePixel 1 1 0 0
    rfl rfl (by decide) (by decide)
  refine ⟨?_, ?_, ?_⟩
  · rw [h1]
    decide
  · rw [h4]
    decide
  · rw [h2 0 (by decide) rfl]
    decide

/-- C9: a single layer with alpha 255 everywhere and opacity 255,
composited onto the freshly zero-initialized canvas of its own
dimensions, reproduces the layer exactly: color channels equal the
layer's color plane and the canvas alpha equals the layer's alpha
channel. -/
theorem claim_C9 : ∀ (layer : ImageF) (name : String) (H W : Nat),
    layer.height = H → layer.width = W →
    (∀ y x, y < H → x < W → layer.pix y x 3 = 255) →
    ∀ y x, y < H → x < W → ∀ c : Fin 4,
      mergeLayersToCanvas [(name, some (applyLayerOpacity 255 layer))] W H y x c =
        layer.pix y x c := by
  intro layer name H W hH hW halpha y x hy hx c
  have hid : applyLayerOpacity 255 layer = layer := by
    unfold applyLayerOpacity
    rw [if_neg (by omega)]
  have hmerge : mergeLayersToCanvas [(name, some (applyLayerOpacity 255 layer))] W H =
      blendLayer zeroCanvas H W layer := by
    rw [hid]
    rfl
  rw [hmerge, blendLayer_pix zeroCanvas H W layer hH hW y x hy hx c]
  by_cases hc : c = (3 : Fin 4)
  · rw [if_pos hc, hc, halpha y x hy hx]
    rfl
  · rw [if_neg hc, halpha y x hy hx]
    have : ((255 : Nat) : ℚ) / 255 * (layer.pix y x c : ℚ)
        + (1 - ((255 : Nat) : ℚ) / 255) * (zeroCanvas y x c : ℚ) =
        ((layer.pix y x c : Nat) : ℚ) := by
      norm_num
    rw [this, ratToUint8, Nat.floor_natCast]

/-- C9, witness at the concrete fully opaque 1x1 white layer. -/
theorem claim_C9_witness :
    mergeLayersToCanvas [("L", some (applyLayerOpacity 255 opaqueWhitePixel))] 1 1 0 0 0 =
      255 ∧
    mergeLayersToCanvas [("L", some (applyLayerOpacity 255 opaqueWhitePixel))] 1 1 0 0 3 =
      255 := by
  have h0 := claim_C9 opaqueWhitePixel "L" 1 1 rfl rfl
    (fun _ _ _ _ => rfl) 0 0 (by decide) (by decide) 0
  have h3 := claim_C9 opaqueWhitePixel "L" 1 1 rfl rfl
    (fun _ _ _ _ => rfl) 0 0 (by decide) (by decide) 3
  rw [h0, h3]
  exact ⟨rfl, rfl⟩

/-! Lemmas about the layer ordering and schema defaults. -/

lemma mem_insertSorted {α : Type} (key : α → Nat) (a x : α) (l : List α) :
    x ∈ insertSorted key a l ↔ x = a ∨ x ∈ l := by
  induction l with
  | nil => simp [insertSorted]
  | cons b bs ih =>
    unfold insertSorted
    split
    · exact List.mem_cons
    · rw [List.mem_cons, ih, List.mem_cons]
      tauto

lemma insertSorted_of_le {α : Type} (key : α → Nat) (a : α) (l : List α)
    (h : ∀ b ∈ l, key a ≤ key b) : insertSorted key a l = a :: l := by
  cases l with
  | nil => rfl
  | cons b bs =>
    unfold insertSorted
    rw [if_pos (h b (List.mem_cons_self b bs))]

/-- A stable sort whose key is constant on the list leaves it unchanged. -/
lemma sortByKey_of_const {α : Type} (key : α → Nat) (c : Nat) :
    ∀ l : List α, (∀ x ∈ l, key x = c) → sortByKey key l = l := by
  intro l
  induction l with
  | nil => intro _; rfl
  | cons x xs ih =>
    intro h
    unfold sortByKey
    rw [ih (fun y hy => h y (List.mem_cons_of_mem _ hy)), insertSorted_of_le]
    intro b hb
    rw [h x (List.mem_cons_self x xs), h b (List.mem_cons_of_mem _ hb)]

lemma pairwise_insertSorted {α : Type} (key : α → Nat) (a : α) (l : List α)
    (h : l.Pairwise (fun u v => key u ≤ key v)) :
    (insertSorted key a l).Pairwise (fun u v => key u ≤ key v) := by
  induction l with
  | nil => simp [insertSorted]
  | cons b bs ih =>
    rw [List.pairwise_cons] at h
    obtain ⟨hb, hbs⟩ := h
    unfold insertSorted
    split
    · rename_i hab
      refine List.Pairwise.cons ?_ (List.Pairwise.cons hb hbs)
      intro x hx
      rcases List.mem_cons.mp hx with rfl | hx
      · exact hab
      · exact le_trans hab (hb x hx)
    · rename_i hab
      refine List.Pairwise.cons ?_ (ih hbs)
      intro x hx
      rcases (mem_insertSorted key a x bs).mp hx with rfl | hx
      · exact Nat.le_of_lt (Nat.lt_of_not_le hab)
      · exact hb x hx

/-- The sort is sorted with respect to its key. -/
lemma pairwise_sortByKey {α : Type} (key : α → Nat) :
    ∀ l : List α, (sortByKey key l).Pairwise (fun u v => key u ≤ key v) := by
  intro l
  induction l with
  | nil => simp [sortByKey]
  | cons x xs ih =>
    unfold sortByKey
    exact pairwise_insertSorted key x _ ih

/-- Without the extended columns every record carries the literal
defaults of `_read_layers`. -/
lemma readLayers_false_defaults (rows : List LayerRow) :
    ∀ rec ∈ readLayers false rows,
      rec.layer_visible = 1 ∧ rec.layer_opacity = 255 ∧
      rec.layer_blend_mode = 0 ∧ rec.layer_index = 0 := by
  intro rec hrec
  simp only [readLayers, Bool.false_eq_true, if_false] at hrec
  obtain ⟨r, _, rfl⟩ := List.mem_map.mp hrec
  exact ⟨rfl, rfl, rfl, rfl⟩

/-- C8, counterexample: with the extended columns absent, the record's
order field defaults to 0, not to the layer's id (here 5). -/
theorem claim_C8_counterexample :
    (readLayers false [rowFive]).map (fun rec => rec.layer_index) = [0] ∧
    rowFive.MainId = 5 ∧ (0 : Nat) ≠ 5 := by
  refine ⟨?_, rfl, by decide⟩
  rfl

/-- C8, amended: absent optional columns default to `visible = 1`,
`opacity = 255`, `blend_mode = 0` and order field `layer_index = 0` (not
the layer's id); the fallback query still returns the layers in `MainId`
order, and because the compositing sort is stable and its key is the
constant 0, the compositing order remains `MainId` order.  With the
columns present, both the query result and the compositing list are
sorted by `LayerIndex`. -/
theorem claim_C8_amended : ∀ rows : List LayerRow,
    (∀ rec ∈ readLayers false rows,
      rec.layer_visible = 1 ∧ rec.layer_opacity = 255 ∧
      rec.layer_blend_mode = 0 ∧ rec.layer_index = 0) ∧
    (readLayers false rows).Pairwise (fun u v => u.main_id ≤ v.main_id) ∧
    sortVisibleLayers (readLayers false rows) =
      visibleLayers (readLayers false rows) ∧
    (readLayers true rows).Pairwise (fun u v => u.layer_index ≤ v.layer_index) ∧
    (sortVisibleLayers (readLayers true rows)).Pairwise
      (fun u v => u.layer_index ≤ v.layer_index) := by
  intro rows
  refine ⟨readLayers_false_defaults rows, ?_, ?_, ?_, ?_⟩
  · simp only [readLayers, Bool.false_eq_true, if_false]
    rw [List.pairwise_map]
    exact (pairwise_sortByKey (fun r => r.MainId) rows).imp (fun h => h)
  · rw [sortVisibleLayers]
    apply sortByKey_of_const _ 0
    intro rec hrec
    exact (readLayers_false_defaults rows rec (List.mem_of_mem_filter hrec)).2.2.2
  · simp only [readLayers, if_true]
    rw [List.pairwise_map]
    exact (pairwise_sortByKey (fun r => r.LayerIndex) rows).imp (fun h => h)
  · exact pairwise_sortByKey _ _

/-- C8, witness at a concrete two-row table: the stable constant-key sort
leaves the MainId-ordered visible layers unchanged. -/
theorem claim_C8_witness :
    sortVisibleLayers (readLayers false [rowFive, rowThree]) =
      visibleLayers (readLayers false [rowFive, rowThree]) ∧
    (readLayers false [rowFive, rowThree]).map (fun rec => rec.main_id) = [3, 5] := by
  refine ⟨(claim_C8_amended [rowFive, rowThree]).2.2.1, ?_⟩
  rfl

/-! Generic list-indexing lemmas for the tile stitching pipeline. -/

lemma getD_append_left {α : Type} (a b : List α) (i : Nat) (d : α)
    (h : i < a.length) : (a ++ b).getD i d = a.getD i d := by
  rw [List.getD_eq_getElem?_getD, List.getD_eq_getElem?_getD, List.getElem?_append,
    if_pos h]

lemma getD_append_right {α : Type} (a b : List α) (i : Nat) (d : α)
    (h : a.length ≤ i) : (a ++ b).getD i d = b.getD (i - a.length) d := by
  rw [List.getD_eq_getElem?_getD, List.getD_eq_getElem?_getD, List.getElem?_append,
    if_neg (Nat.not_lt.mpr h)]

lemma getD_take_of_lt {α : Type} (l : List α) (k i : Nat) (d : α) (h : i < k) :
    (l.take k).getD i d = l.getD i d := by
  rw [List.getD_eq_getElem?_getD, List.getD_eq_getElem?_getD, List.getElem?_take,
    if_pos h]

lemma getD_drop_add {α : Type} (l : List α) (a i : Nat) (d : α) :
    (l.drop a).getD i d = l.getD (a + i) d := by
  rw [List.getD_eq_getElem?_getD, List.getD_eq_getElem?_getD, List.getElem?_drop]

/-- Python slice `l[a : a + k]` indexes back into `l` below its length. -/
lemma getD_slice {α : Type} (l : List α) (a k i : Nat) (d : α) (h : i < k) :
    ((l.drop a).take k).getD i d = l.getD (a + i) d := by
  rw [getD_take_of_lt _ _ _ _ h, getD_drop_add]

lemma getD_range_map {β : Type} (n : Nat) (f : Nat → β) (i : Nat) (d : β)
    (h : i < n) : ((List.range n).map f).getD i d = f i := by
  rw [List.getD_eq_getElem?_getD, List.getElem?_map, List.getElem?_range h]
  rfl

lemma getD_map_of_lt {β γ : Type} (l : List β) (f : β → γ) (i : Nat) (d : γ)
    (d' : β) (h : i < l.length) : (l.map f).getD i d = f (l.getD i d') := by
  rw [List.getD_eq_getElem?_getD, List.getElem?_map, List.getElem?_eq_getElem h,
    List.getD_eq_getElem l d' h]
  rfl

lemma getD_replicate_zero (n i : Nat) : (List.replicate n (0 : Nat)).getD i 0 = 0 := by
  rcases Nat.lt_or_ge i n with h | h
  · rw [List.getD_eq_getElem _ _ (by simpa using h)]
    simp
  · rw [List.getD_eq_default _ _ (by simpa using h)]

lemma flatten_length_const {α : Type} (n : Nat) (l : List (List α))
    (h : ∀ r ∈ l, r.length = n) : l.flatten.length = l.length * n := by
  induction l with
  | nil => simp
  | cons r t ih =>
    rw [List.flatten_cons, List.length_append, List.length_cons,
      ih (fun r hr => h r (List.mem_cons_of_mem _ hr)), h r (List.mem_cons_self r t)]
    ring

/-- Indexing the concatenation of equally-long chunks: position
`n * q + s` falls in chunk `q` at offset `s`. -/
lemma flatten_getD_chunks {α : Type} (n : Nat) (l : List (List α))
    (h : ∀ r ∈ l, r.length = n) (q s : Nat) (hs : s < n) (d : α) :
    l.flatten.getD (n * q + s) d = (l.getD q []).getD s d := by
  induction l generalizing q with
  | nil => simp [List.getD]
  | cons r t ih =>
    rw [List.flatten_cons]
    have hr : r.length = n := h r (List.mem_cons_self r t)
    cases q with
    | zero =>
      rw [Nat.mul_zero, Nat.zero_add, getD_append_left _ _ _ _ (by omega)]
      rfl
    | succ q' =>
      rw [getD_append_right _ _ _ _ (by
          rw [hr]
          calc n ≤ n * (q' + 1) := Nat.le_mul_of_pos_right n (Nat.succ_pos q')
          _ ≤ n * (q' + 1) + s := Nat.le_add_right _ _)]
      have harith : n * (q' + 1) + s - r.length = n * q' + s := by
        rw [hr]
        ring_nf
        omega
      rw [harith, ih (fun r hr => h r (List.mem_cons_of_mem _ hr)) q']
      rfl

lemma foldl_append_eq {γ : Type} :
    ∀ (rs : List (List γ)) (acc : List γ),
      rs.foldl (· ++ ·) acc = acc ++ rs.flatten := by
  intro rs
  induction rs with
  | nil => intro acc; simp
  | cons x xs ih =>
    intro acc
    rw [List.foldl_cons, ih, List.flatten_cons, List.append_assoc]

/-- The vstack fold of `_merge_blocks` is list concatenation. -/
lemma vstackAll_eq_flatten {γ : Type} (l : List (List γ)) :
    vstackAll l = l.flatten := by
  cases l with
  | nil => rfl
  | cons r rs =>
    show rs.foldl (· ++ ·) r = (r :: rs).flatten
    rw [List.flatten_cons, foldl_append_eq]

lemma foldl_hstack_length {γ : Type} (m : Nat) :
    ∀ (bs : List (List (List γ))) (acc : List (List γ)),
      acc.length = m → (∀ t ∈ bs, t.length = m) →
      (bs.foldl hstack acc).length = m := by
  intro bs
  induction bs with
  | nil => intro acc ha _; exact ha
  | cons b t ih =>
    intro acc ha hb
    rw [List.foldl_cons]
    refine ih (hstack acc b) ?_ (fun u hu => hb u (List.mem_cons_of_mem _ hu))
    rw [hstack, List.length_zipWith, ha, hb b (List.mem_cons_self b t)]
    exact Nat.min_self m

/-- Row `r` of an hstack fold is the concatenation of row `r` of every
block. -/
lemma foldl_hstack_getD {γ : Type} (m r : Nat) (hr : r < m) :
    ∀ (bs : List (List (List γ))) (acc : List (List γ)),
      acc.length = m → (∀ t ∈ bs, t.length = m) →
      (bs.foldl hstack acc).getD r [] =
        acc.getD r [] ++ (bs.map (fun t => t.getD r [])).flatten := by
  intro bs
  induction bs with
  | nil => intro acc _ _; simp
  | cons b t ih =>
    intro acc ha hb
    rw [List.foldl_cons,
      ih (hstack acc b) (by
        rw [hstack, List.length_zipWith, ha, hb b (List.mem_cons_self b t)]
        exact Nat.min_self m) (fun u hu => hb u (List.mem_cons_of_mem _ hu))]
    have hrow : (hstack acc b).getD r [] = acc.getD r [] ++ b.getD r [] := by
      have h1 : r < acc.length := by omega
      have h2 : r < b.length := by rw [hb b (List.mem_cons_self b t)]; exact hr
      rw [hstack, List.getD_eq_getElem?_getD, List.getElem?_zipWith,
        List.getElem?_eq_getElem h1, List.getElem?_eq_getElem h2,
        List.getD_eq_getElem _ _ h1, List.getD_eq_getElem _ _ h2]
      rfl
    rw [hrow, List.map_cons, List.flatten_cons, List.append_assoc]

lemma mergeRowBlocks_length {γ : Type} (m : Nat) (tiles : List (List (List γ)))
    (h : ∀ t ∈ tiles, t.length = m) (hne : tiles ≠ []) :
    (mergeRowBlocks tiles).length = m := by
  cases tiles with
  | nil => exact absurd rfl hne
  | cons b bs =>
    show (bs.foldl hstack b).length = m
    exact foldl_hstack_length m bs b (h b (List.mem_cons_self b bs))
      (fun u hu => h u (List.mem_cons_of_mem _ hu))

/-- Row `r` of a stitched grid row is the concatenation of the tiles'
rows `r`, in tile order. -/
lemma mergeRowBlocks_getD {γ : Type} (m r : Nat) (hr : r < m)
    (tiles : List (List (List γ))) (h : ∀ t ∈ tiles, t.length = m)
    (hne : tiles ≠ []) :
    (mergeRowBlocks tiles).getD r [] =
      (tiles.map (fun t => t.getD r [])).flatten := by
  cases tiles with
  | nil => exact absurd rfl hne
  | cons b bs =>
    show (bs.foldl hstack b).getD r [] = _
    rw [foldl_hstack_getD m r hr bs b (h b (List.mem_cons_self b bs))
      (fun u hu => h u (List.mem_cons_of_mem _ hu)), List.map_cons,
      List.flatten_cons]

/-! Lemmas about single tiles. -/

lemma alphaTile_length (data : Bytes) (i : Nat) : (alphaTile data i).length = 256 := by
  simp [alphaTile]

lemma bgraTile_length (data : Bytes) (i : Nat) : (bgraTile data i).length = 256 := by
  simp [bgraTile]

/-- Inside a payload that covers tile `i` completely, every reshaped
alpha row has the full 256 bytes. -/
lemma alphaTile_row_length (data : Bytes) (i k : Nat) (hk : k < 256)
    (hlen : i * 327680 + 327680 ≤ data.length) :
    ((alphaTile data i).getD k []).length = 256 := by
  rw [alphaTile, getD_range_map _ _ _ _ hk]
  simp only [List.length_take, List.length_drop, tileSlice]
  omega

/-- Every reshaped BGRA row has 256 pixels (a `range`-indexed map). -/
lemma bgraTile_row_length (data : Bytes) (i k : Nat) (hk : k < 256) :
    ((bgraTile data i).getD k []).length = 256 := by
  rw [bgraTile, getD_range_map _ _ _ _ hk]
  simp

/-- Alpha byte `(r, x)` of tile `i` sits at byte
`i * 327680 + 256 * r + x` of the payload: the tile stride is
`256 * 320 * 4` and the alpha plane leads the tile. -/
lemma alphaTile_entry (data : Bytes) (i r x : Nat) (hr : r < 256) (hx : x < 256) :
    ((alphaTile data i).getD r []).getD x 0 =
      data.getD (i * 327680 + (256 * r + x)) 0 := by
  rw [alphaTile, getD_range_map _ _ _ _ hr, getD_slice _ _ _ _ _ hx,
    getD_take_of_lt _ _ _ _ (by omega : 256 * r + x < 65536), tileSlice,
    getD_slice _ _ _ _ _ (by omega : 256 * r + x < 327680)]

/-- Channel `c` of BGRA pixel `(r, x)` of tile `i` sits at byte
`i * 327680 + 65536 + 1024 * r + 4 * x + c`: the 4-channel plane follows
immediately after the `256 * 256` alpha bytes. -/
lemma bgraTile_pixel (data : Bytes) (i r x c : Nat) (hr : r < 256) (hx : x < 256)
    (hc : c < 4) :
    (((bgraTile data i).getD r []).getD x []).getD c 0 =
      data.getD (i * 327680 + (65536 + (1024 * r + 4 * x + c))) 0 := by
  rw [bgraTile, getD_range_map _ _ _ _ hr, getD_range_map _ _ _ _ hx,
    getD_slice _ _ _ _ _ hc, getD_drop_add, tileSlice,
    getD_slice _ _ _ _ _ (by omega : 65536 + (1024 * r + 4 * x + c) < 327680)]

/-! Lemmas about the stitched padded planes. -/

lemma range_map_ne_nil {β : Type} (n : Nat) (hn : 0 < n) (f : Nat → β) :
    (List.range n).map f ≠ [] := by
  intro hc
  have hl := congrArg List.length hc
  simp at hl
  omega

/-- Row `256 * q + s` of the stitched alpha plane is the concatenation of
row `s` of the tiles of grid row `q`, in column order — tile index
`q * blocks_per_column + column`. -/
lemma alphaImage_row (data : Bytes) (bpr bpc : Nat) (hbpc : 0 < bpc) (q s : Nat)
    (hq : q < bpr) (hs : s < 256) :
    (externalDataToImage data bpr bpc).2.getD (256 * q + s) [] =
      ((List.range bpc).map
        (fun bx => (alphaTile data (q * bpc + bx)).getD s [])).flatten := by
  simp only [externalDataToImage]
  rw [mergeBlocks, vstackAll_eq_flatten, List.map_map]
  have hrows : ∀ r ∈ (List.range bpr).map (mergeRowBlocks ∘ fun bi =>
      (List.range bpc).map fun bx => alphaTile data (bi * bpc + bx)),
      r.length = 256 := by
    intro r hr
    obtain ⟨bi, _, rfl⟩ := List.mem_map.mp hr
    refine mergeRowBlocks_length 256 _ ?_ (range_map_ne_nil bpc hbpc _)
    intro t ht
    obtain ⟨bx, _, rfl⟩ := List.mem_map.mp ht
    exact alphaTile_length data _
  rw [flatten_getD_chunks 256 _ hrows q s hs, getD_range_map _ _ _ _ hq]
  show (mergeRowBlocks ((List.range bpc).map
    fun bx => alphaTile data (q * bpc + bx))).getD s [] = _
  rw [mergeRowBlocks_getD 256 s hs _ (by
      intro t ht
      obtain ⟨bx, _, rfl⟩ := List.mem_map.mp ht
      exact alphaTile_length data _) (range_map_ne_nil bpc hbpc _), List.map_map]
  rfl

/-- Row `256 * q + s` of the stitched BGRA plane, likewise. -/
lemma bgraImage_row (data : Bytes) (bpr bpc : Nat) (hbpc : 0 < bpc) (q s : Nat)
    (hq : q < bpr) (hs : s < 256) :
    (mergeBlocks ((List.range bpr).map (fun bi =>
        (List.range bpc).map (fun bx => bgraTile data (bi * bpc + bx))))).getD
        (256 * q + s) [] =
      ((List.range bpc).map
        (fun bx => (bgraTile data (q * bpc + bx)).getD s [])).flatten := by
  rw [mergeBlocks, vstackAll_eq_flatten, List.map_map]
  have hrows : ∀ r ∈ (List.range bpr).map (mergeRowBlocks ∘ fun bi =>
      (List.range bpc).map fun bx => bgraTile data (bi * bpc + bx)),
      r.length = 256 := by
    intro r hr
    obtain ⟨bi, _, rfl⟩ := List.mem_map.mp hr
    refine mergeRowBlocks_length 256 _ ?_ (range_map_ne_nil bpc hbpc _)
    intro t ht
    obtain ⟨bx, _, rfl⟩ := List.mem_map.mp ht
    exact bgraTile_length data _
  rw [flatten_getD_chunks 256 _ hrows q s hs, getD_range_map _ _ _ _ hq]
  show (mergeRowBlocks ((List.range bpc).map
    fun bx => bgraTile data (q * bpc + bx))).getD s [] = _
  rw [mergeRowBlocks_getD 256 s hs _ (by
      intro t ht
      obtain ⟨bx, _, rfl⟩ := List.mem_map.mp ht
      exact bgraTile_length data _) (range_map_ne_nil bpc hbpc _), List.map_map]
  rfl

/-- The stitched padded alpha plane has `blocks_per_row * 256` rows. -/
lemma alphaImage_length (data : Bytes) (bpr bpc : Nat) (hbpc : 0 < bpc) :
    (externalDataToImage data bpr bpc).2.length = bpr * 256 := by
  simp only [externalDataToImage]
  rw [mergeBlocks, vstackAll_eq_flatten, List.map_map, flatten_length_const 256]
  · simp
  · intro r hr
    obtain ⟨bi, _, rfl⟩ := List.mem_map.mp hr
    refine mergeRowBlocks_length 256 _ ?_ (range_map_ne_nil bpc hbpc _)
    intro t ht
    obtain ⟨bx, _, rfl⟩ := List.mem_map.mp ht
    exact alphaTile_length data _

/-- The stitched padded BGRA plane has `blocks_per_row * 256` rows. -/
lemma bgraImage_length (data : Bytes) (bpr bpc : Nat) (hbpc : 0 < bpc) :
    (mergeBlocks ((List.range bpr).map (fun bi =>
      (List.range bpc).map (fun bx => bgraTile data (bi * bpc + bx))))).length =
      bpr * 256 := by
  rw [mergeBlocks, vstackAll_eq_flatten, List.map_map, flatten_length_const 256]
  · simp
  · intro r hr
    obtain ⟨bi, _, rfl⟩ := List.mem_map.mp hr
    refine mergeRowBlocks_length 256 _ ?_ (range_map_ne_nil bpc hbpc _)
    intro t ht
    obtain ⟨bx, _, rfl⟩ := List.mem_map.mp ht
    exact bgraTile_length data _

/-- Each row of the padded alpha plane spans
`blocks_per_column * 256` bytes when the payload covers every tile. -/
lemma alphaImage_row_length (data : Bytes) (bpr bpc : Nat) (hbpc : 0 < bpc)
    (hlen : bpr * bpc * 327680 ≤ data.length) (q s : Nat) (hq : q < bpr)
    (hs : s < 256) :
    ((externalDataToImage data bpr bpc).2.getD (256 * q + s) []).length =
      bpc * 256 := by
  rw [alphaImage_row data bpr bpc hbpc q s hq hs, flatten_length_const 256]
  · simp
  · intro r hr
    obtain ⟨bx, hbx, rfl⟩ := List.mem_map.mp hr
    rw [List.mem_range] at hbx
    refine alphaTile_row_length data _ s hs ?_
    have hi : q * bpc + bx + 1 ≤ bpr * bpc := by
      calc q * bpc + bx + 1 ≤ q * bpc + bpc := by omega
      _ = (q + 1) * bpc := by ring
      _ ≤ bpr * bpc := Nat.mul_le_mul_right bpc (by omega)
    calc (q * bpc + bx) * 327680 + 327680 = (q * bpc + bx + 1) * 327680 := by ring
    _ ≤ bpr * bpc * 327680 := Nat.mul_le_mul_right _ hi
    _ ≤ data.length := hlen

/-- Each row of the padded BGRA plane spans `blocks_per_column * 256`
pixels. -/
lemma bgraImage_row_length (data : Bytes) (bpr bpc : Nat) (hbpc : 0 < bpc)
    (q s : Nat) (hq : q < bpr) (hs : s < 256) :
    ((mergeBlocks ((List.range bpr).map (fun bi =>
        (List.range bpc).map (fun bx => bgraTile data (bi * bpc + bx))))).getD
        (256 * q + s) []).length = bpc * 256 := by
  rw [bgraImage_row data bpr bpc hbpc q s hq hs, flatten_length_const 256]
  · simp
  · intro r hr
    obtain ⟨bx, hbx, rfl⟩ := List.mem_map.mp hr
    rw [List.mem_range] at hbx
    exact bgraTile_row_length data _ s hs

/-- `256 * q + s` stays below `n * 256` when `q < n` and `s < 256`. -/
lemma idx_lt_padded (q s n : Nat) (hq : q < n) (hs : s < 256) :
    256 * q + s < n * 256 := by
  have h1 : (q + 1) * 256 ≤ n * 256 := Nat.mul_le_mul_right 256 (by omega)
  omega

/-- Alpha byte `(256q + s, 256xq + xs)` of the padded plane reads the
payload at tile `q * blocks_per_column + xq`, offset `256 * s + xs`. -/
lemma alphaImage_entry (data : Bytes) (bpr bpc : Nat) (hbpc : 0 < bpc)
    (hlen : bpr * bpc * 327680 ≤ data.length) (q s xq xs : Nat)
    (hq : q < bpr) (hs : s < 256) (hxq : xq < bpc) (hxs : xs < 256) :
    ((externalDataToImage data bpr bpc).2.getD (256 * q + s) []).getD
        (256 * xq + xs) 0 =
      data.getD ((q * bpc + xq) * 327680 + (256 * s + xs)) 0 := by
  rw [alphaImage_row data bpr bpc hbpc q s hq hs]
  have hrows : ∀ r ∈ (List.range bpc).map
      (fun bx => (alphaTile data (q * bpc + bx)).getD s []), r.length = 256 := by
    intro r hr
    obtain ⟨bx, hbx, rfl⟩ := List.mem_map.mp hr
    rw [List.mem_range] at hbx
    refine alphaTile_row_length data _ s hs ?_
    have hi : q * bpc + bx + 1 ≤ bpr * bpc := by
      calc q * bpc + bx + 1 ≤ q * bpc + bpc := by omega
      _ = (q + 1) * bpc := by ring
      _ ≤ bpr * bpc := Nat.mul_le_mul_right bpc (by omega)
    calc (q * bpc + bx) * 327680 + 327680 = (q * bpc + bx + 1) * 327680 := by ring
    _ ≤ bpr * bpc * 327680 := Nat.mul_le_mul_right _ hi
    _ ≤ data.length := hlen
  rw [flatten_getD_chunks 256 _ hrows xq xs hxs, getD_range_map _ _ _ _ hxq]
  exact alphaTile_entry data _ s xs hs hxs

/-- BGRA channel `c` of padded pixel `(256q + s, 256xq + xs)` reads the
payload 65536 bytes into the same tile. -/
lemma bgraImage_pixel (data : Bytes) (bpr bpc : Nat) (hbpc : 0 < bpc)
    (q s xq xs c : Nat) (hq : q < bpr) (hs : s < 256) (hxq : xq < bpc)
    (hxs : xs < 256) (hc : c < 4) :
    (((mergeBlocks ((List.range bpr).map (fun bi =>
        (List.range bpc).map (fun bx => bgraTile data (bi * bpc + bx))))).getD
        (256 * q + s) []).getD (256 * xq + xs) []).getD c 0 =
      data.getD ((q * bpc + xq) * 327680 + (65536 + (1024 * s + 4 * xs + c))) 0 := by
  rw [bgraImage_row data bpr bpc hbpc q s hq hs]
  have hrows : ∀ r ∈ (List.range bpc).map
      (fun bx => (bgraTile data (q * bpc + bx)).getD s []), r.length = 256 := by
    intro r hr
    obtain ⟨bx, hbx, rfl⟩ := List.mem_map.mp hr
    rw [List.mem_range] at hbx
    exact bgraTile_row_length data _ s hs
  rw [flatten_getD_chunks 256 _ hrows xq xs hxs, getD_range_map _ _ _ _ hxq]
  exact bgraTile_pixel data _ s xs c hs hxs hc

/-- Color channel `c < 3` of the channel-deleted BGR plane agrees with
the BGRA plane: `np.delete(_, 3, 2)` keeps channels 0-2. -/
lemma bgrImage_entry (data : Bytes) (bpr bpc : Nat) (hbpc : 0 < bpc)
    (q s xq xs c : Nat) (hq : q < bpr) (hs : s < 256) (hxq : xq < bpc)
    (hxs : xs < 256) (hc : c < 3) :
    (((externalDataToImage data bpr bpc).1.getD (256 * q + s) []).getD
        (256 * xq + xs) []).getD c 0 =
      data.getD ((q * bpc + xq) * 327680 + (65536 + (1024 * s + 4 * xs + c))) 0 := by
  simp only [externalDataToImage]
  rw [getD_map_of_lt _ _ _ _ []
    (by rw [bgraImage_length data bpr bpc hbpc]; exact idx_lt_padded q s bpr hq hs)]
  rw [getD_map_of_lt _ _ _ _ []
    (by rw [bgraImage_row_length data bpr bpc hbpc q s hq hs]
        exact idx_lt_padded xq xs bpc hxq hxs)]
  rw [getD_take_of_lt _ _ _ _ hc]
  exact bgraImage_pixel data bpr bpc hbpc q s xq xs c hq hs hxq hxs (by omega)

lemma blocksPerRow_pos (n : Nat) (hn : 0 < n) : 0 < blocksPerRow n := by
  rw [blocksPerRow]
  omega

lemma blocksPerColumn_pos (n : Nat) (hn : 0 < n) : 0 < blocksPerColumn n := by
  rw [blocksPerColumn]
  omega

lemma le_padded_of_blocksPerRow (n : Nat) : n ≤ blocksPerRow n * 256 := by
  rw [blocksPerRow]
  omega

lemma le_padded_of_blocksPerColumn (n : Nat) : n ≤ blocksPerColumn n * 256 := by
  rw [blocksPerColumn]
  omega

/-- On a payload of the full expected size, the conversion reaches the
stitch-and-crop branch. -/
lemma convert_full (data : Bytes) (w h : Nat) (hw : 0 < w) (hh : 0 < h)
    (hl : data.length = blocksPerRow h * blocksPerColumn w * 327680) :
    convertExternalDataToImage data w h = .ok (some
      (((externalDataToImage data (blocksPerRow h) (blocksPerColumn w)).1.take h).map
        (fun row => row.take w),
       ((externalDataToImage data (blocksPerRow h) (blocksPerColumn w)).2.take h).map
        (fun row => row.take w))) := by
  have hbpr : 0 < blocksPerRow h := blocksPerRow_pos h hh
  have hbpc : 0 < blocksPerColumn w := blocksPerColumn_pos w hw
  have hk : 0 < blocksPerRow h * blocksPerColumn w := Nat.mul_pos hbpr hbpc
  have heq : blocksPerColumn w * 256 * (blocksPerRow h * 256) * 5 =
      blocksPerRow h * blocksPerColumn w * 327680 := by ring
  have hne : data.length ≠ blocksPerColumn w * 256 * (blocksPerRow h * 256) := by
    rw [hl]
    intro hcontra
    have h1 : blocksPerColumn w * 256 * (blocksPerRow h * 256) =
        blocksPerRow h * blocksPerColumn w * 65536 := by ring
    rw [h1] at hcontra
    have h2 : blocksPerRow h * blocksPerColumn w * 65536 <
        blocksPerRow h * blocksPerColumn w * 327680 :=
      (Nat.mul_lt_mul_left hk).mpr (by norm_num)
    omega
  simp only [convertExternalDataToImage]
  rw [if_neg hne, if_neg (by rw [heq]; exact fun hcontra => hcontra hl)]

/-- `(n + 255) / 256` is exactly the rational ceiling of `n / 256`. -/
lemma blocksPerRow_eq_ceil (n : Nat) : ((blocksPerRow n : Nat) : ℤ) = ⌈(n : ℚ) / 256⌉ := by
  have h1 := Nat.div_add_mod (n + 255) 256
  have h2 : (n + 255) % 256 < 256 := Nat.mod_lt _ (by norm_num)
  have hA : 256 * ((n + 255) / 256) < n + 256 := by omega
  have hB : n ≤ 256 * ((n + 255) / 256) := by omega
  have hA2 : (256 : ℚ) * (((n + 255) / 256 : Nat) : ℚ) < (n : ℚ) + 256 := by
    exact_mod_cast hA
  have hB2 : ((n : ℚ)) ≤ 256 * (((n + 255) / 256 : Nat) : ℚ) := by
    exact_mod_cast hB
  rw [blocksPerRow, eq_comm, Int.ceil_eq_iff, Int.cast_natCast]
  constructor
  · rw [lt_div_iff₀ (by norm_num : (0 : ℚ) < 256)]
    linarith
  · rw [div_le_iff₀ (by norm_num : (0 : ℚ) < 256)]
    linarith

lemma blocksPerColumn_eq_ceil (n : Nat) :
    ((blocksPerColumn n : Nat) : ℤ) = ⌈(n : ℚ) / 256⌉ :=
  blocksPerRow_eq_ceil n

/-- The cropped alpha plane keeps only the declared `image_height` rows. -/
lemma croppedAlpha_length (data : Bytes) (w h : Nat) (hw : 0 < w) (hh : 0 < h) :
    (((externalDataToImage data (blocksPerRow h) (blocksPerColumn w)).2.take h).map
      (fun row => row.take w)).length = h := by
  rw [List.length_map, List.length_take,
    alphaImage_length data _ _ (blocksPerColumn_pos w hw)]
  exact Nat.min_eq_left (le_padded_of_blocksPerRow h)

/-- Each cropped alpha row keeps only the declared `image_width` bytes. -/
lemma croppedAlpha_row_length (data : Bytes) (w h : Nat) (hw : 0 < w) (hh : 0 < h)
    (hlen : data.length = blocksPerRow h * blocksPerColumn w * 327680) :
    ∀ row ∈ ((externalDataToImage data (blocksPerRow h) (blocksPerColumn w)).2.take h).map
      (fun row => row.take w), row.length = w := by
  intro row hrow
  obtain ⟨r0, hr0, rfl⟩ := List.mem_map.mp hrow
  obtain ⟨⟨i, hi⟩, hget⟩ := List.mem_iff_get.mp hr0
  have hih : i < h := by
    have hl := hi
    rw [List.length_take] at hl
    omega
  have hipad : i < blocksPerRow h * 256 :=
    Nat.lt_of_lt_of_le hih (le_padded_of_blocksPerRow h)
  have hr0eq : r0 = (externalDataToImage data (blocksPerRow h)
      (blocksPerColumn w)).2.getD i [] := by
    rw [← hget, ← List.getD_eq_get _ [] hi, getD_take_of_lt _ _ _ _ hih]
  have hq : i / 256 < blocksPerRow h := Nat.div_lt_of_lt_mul (by omega)
  have hrl : r0.length = blocksPerColumn w * 256 := by
    rw [hr0eq, ← Nat.div_add_mod i 256]
    exact alphaImage_row_length data _ _ (blocksPerColumn_pos w hw) (le_of_eq hlen.symm)
      (i / 256) (i % 256) hq (Nat.mod_lt _ (by norm_num))
  rw [List.length_take, hrl]
  exact Nat.min_eq_left (le_padded_of_blocksPerColumn w)

/-- The cropped BGR plane keeps only the declared `image_height` rows. -/
lemma croppedBgr_length (data : Bytes) (w h : Nat) (hw : 0 < w) (hh : 0 < h) :
    (((externalDataToImage data (blocksPerRow h) (blocksPerColumn w)).1.take h).map
      (fun row => row.take w)).length = h := by
  rw [List.length_map, List.length_take]
  have : (externalDataToImage data (blocksPerRow h) (blocksPerColumn w)).1.length =
      blocksPerRow h * 256 := by
    simp only [externalDataToImage]
    rw [List.length_map]
    exact bgraImage_length data _ _ (blocksPerColumn_pos w hw)
  rw [this]
  exact Nat.min_eq_left (le_padded_of_blocksPerRow h)

/-- Each cropped BGR row keeps only the declared `image_width` pixels. -/
lemma croppedBgr_row_length (data : Bytes) (w h : Nat) (hw : 0 < w) (hh : 0 < h) :
    ∀ row ∈ ((externalDataToImage data (blocksPerRow h) (blocksPerColumn w)).1.take h).map
      (fun row => row.take w), row.length = w := by
  intro row hrow
  obtain ⟨r0, hr0, rfl⟩ := List.mem_map.mp hrow
  obtain ⟨⟨i, hi⟩, hget⟩ := List.mem_iff_get.mp hr0
  have hbpc : 0 < blocksPerColumn w := blocksPerColumn_pos w hw
  have hih : i < h := by
    have hl := hi
    rw [List.length_take] at hl
    omega
  have hipad : i < blocksPerRow h * 256 :=
    Nat.lt_of_lt_of_le hih (le_padded_of_blocksPerRow h)
  have hq : i / 256 < blocksPerRow h := Nat.div_lt_of_lt_mul (by omega)
  have hr0eq : r0 = (externalDataToImage data (blocksPerRow h)
      (blocksPerColumn w)).1.getD i [] := by
    rw [← hget, ← List.getD_eq_get _ [] hi, getD_take_of_lt _ _ _ _ hih]
  have hrl : r0.length = blocksPerColumn w * 256 := by
    rw [hr0eq]
    simp only [externalDataToImage]
    rw [getD_map_of_lt _ _ _ _ []
      (by rw [bgraImage_length data _ _ hbpc]; exact hipad), List.length_map,
      ← Nat.div_add_mod i 256]
    exact bgraImage_row_length data _ _ hbpc (i / 256) (i % 256) hq
      (Nat.mod_lt _ (by norm_num))
  rw [List.length_take, hrl]
  exact Nat.min_eq_left (le_padded_of_blocksPerColumn w)

/-- In-range entry of the cropped alpha plane, in terms of the payload:
the tile index is `(y / 256) * blocks_per_column + x / 256` (row-major),
the tile stride 327680 bytes, the in-tile offset `256 * (y % 256) +
x % 256`. -/
lemma croppedAlpha_entry (data : Bytes) (w h : Nat) (hw : 0 < w) (hh : 0 < h)
    (hlen : data.length = blocksPerRow h * blocksPerColumn w * 327680)
    (y x : Nat) (hy : y < h) (hx : x < w) :
    ((((externalDataToImage data (blocksPerRow h) (blocksPerColumn w)).2.take h).map
      (fun row => row.take w)).getD y []).getD x 0 =
      data.getD ((y / 256 * blocksPerColumn w + x / 256) * 327680 +
        (256 * (y % 256) + x % 256)) 0 := by
  have hbpc : 0 < blocksPerColumn w := blocksPerColumn_pos w hw
  have hypad : y < blocksPerRow h * 256 :=
    Nat.lt_of_lt_of_le hy (le_padded_of_blocksPerRow h)
  have hxpad : x < blocksPerColumn w * 256 :=
    Nat.lt_of_lt_of_le hx (le_padded_of_blocksPerColumn w)
  have hytake : y < ((externalDataToImage data (blocksPerRow h)
      (blocksPerColumn w)).2.take h).length := by
    rw [List.length_take, alphaImage_length data _ _ hbpc]
    omega
  rw [getD_map_of_lt _ _ _ _ [] hytake, getD_take_of_lt _ _ _ _ hy,
    getD_take_of_lt _ _ _ _ hx]
  have hidx := alphaImage_entry data (blocksPerRow h) (blocksPerColumn w) hbpc
    (le_of_eq hlen.symm) (y / 256) (y % 256) (x / 256) (x % 256)
    (Nat.div_lt_of_lt_mul (by omega)) (Nat.mod_lt _ (by norm_num))
    (Nat.div_lt_of_lt_mul (by omega)) (Nat.mod_lt _ (by norm_num))
  rw [Nat.div_add_mod y 256, Nat.div_add_mod x 256] at hidx
  exact hidx

/-- In-range color entry of the cropped BGR plane, likewise, offset into
the BGRA section of the tile. -/
lemma croppedBgr_entry (data : Bytes) (w h : Nat) (hw : 0 < w) (hh : 0 < h)
    (hlen : data.length = blocksPerRow h * blocksPerColumn w * 327680)
    (y x c : Nat) (hy : y < h) (hx : x < w) (hc : c < 3) :
    (((((externalDataToImage data (blocksPerRow h) (blocksPerColumn w)).1.take h).map
      (fun row => row.take w)).getD y []).getD x []).getD c 0 =
      data.getD ((y / 256 * blocksPerColumn w + x / 256) * 327680 +
        (65536 + (1024 * (y % 256) + 4 * (x % 256) + c))) 0 := by
  have hbpc : 0 < blocksPerColumn w := blocksPerColumn_pos w hw
  have hypad : y < blocksPerRow h * 256 :=
    Nat.lt_of_lt_of_le hy (le_padded_of_blocksPerRow h)
  have hxpad : x < blocksPerColumn w * 256 :=
    Nat.lt_of_lt_of_le hx (le_padded_of_blocksPerColumn w)
  have hytake : y < ((externalDataToImage data (blocksPerRow h)
      (blocksPerColumn w)).1.take h).length := by
    rw [List.length_take]
    have : (externalDataToImage data (blocksPerRow h) (blocksPerColumn w)).1.length =
        blocksPerRow h * 256 := by
      simp only [externalDataToImage]
      rw [List.length_map]
      exact bgraImage_length data _ _ hbpc
    rw [this]
    omega
  rw [getD_map_of_lt _ _ _ _ [] hytake, getD_take_of_lt _ _ _ _ hy,
    getD_take_of_lt _ _ _ _ hx]
  have hidx := bgrImage_entry data (blocksPerRow h) (blocksPerColumn w) hbpc
    (y / 256) (y % 256) (x / 256) (x % 256) c
    (Nat.div_lt_of_lt_mul (by omega)) (Nat.mod_lt _ (by norm_num))
    (Nat.div_lt_of_lt_mul (by omega)) (Nat.mod_lt _ (by norm_num)) hc
  rw [Nat.div_add_mod y 256, Nat.div_add_mod x 256] at hidx
  exact hidx

/-- C3: the tile grid is `ceil(height/256)` rows by `ceil(width/256)`
columns; each tile holds `256*256` alpha bytes immediately followed by
`256*256*4` BGRA bytes at a fixed stride of `256*320*4` bytes, tiles are
row-major with `index = row * cols + col`, and the stitched padded planes
are cropped to `width x height` from the top-left.  For `width = 300,
height = 100` the grid is 1 row by 2 columns, padded to `512 x 256`. -/
theorem claim_C3 : ∀ (w h : Nat) (data : Bytes),
    0 < w → 0 < h →
    data.length = blocksPerRow h * blocksPerColumn w * 327680 →
    (((blocksPerRow h : Nat) : ℤ) = ⌈(h : ℚ) / 256⌉ ∧
     ((blocksPerColumn w : Nat) : ℤ) = ⌈(w : ℚ) / 256⌉) ∧
    (∃ bgr alpha,
      convertExternalDataToImage data w h = .ok (some (bgr, alpha)) ∧
      alpha.length = h ∧ (∀ row ∈ alpha, row.length = w) ∧
      bgr.length = h ∧ (∀ row ∈ bgr, row.length = w) ∧
      (∀ y x, y < h → x < w →
        ((alpha.getD y []).getD x 0 =
          data.getD ((y / 256 * blocksPerColumn w + x / 256) * (256 * 320 * 4) +
            (256 * (y % 256) + x % 256)) 0 ∧
        ∀ c, c < 3 → ((bgr.getD y []).getD x []).getD c 0 =
          data.getD ((y / 256 * blocksPerColumn w + x / 256) * (256 * 320 * 4) +
            (256 * 256 + (1024 * (y % 256) + 4 * (x % 256) + c))) 0))) ∧
    (blocksPerRow 100 = 1 ∧ blocksPerColumn 300 = 2 ∧
     blocksPerColumn 300 * 256 = 512 ∧ blocksPerRow 100 * 256 = 256) := by
  intro w h data hw hh hlen
  simp only [show (256 * 320 * 4 : Nat) = 327680 from by norm_num,
    show (256 * 256 : Nat) = 65536 from by norm_num]
  refine ⟨⟨blocksPerRow_eq_ceil h, blocksPerColumn_eq_ceil w⟩, ?_, ?_⟩
  · refine ⟨_, _, convert_full data w h hw hh hlen,
      croppedAlpha_length data w h hw hh,
      croppedAlpha_row_length data w h hw hh hlen,
      croppedBgr_length data w h hw hh,
      croppedBgr_row_length data w h hw hh, ?_⟩
    intro y x hy hx
    exact ⟨croppedAlpha_entry data w h hw hh hlen y x hy hx,
      fun c hc => croppedBgr_entry data w h hw hh hlen y x c hy hx hc⟩
  · refine ⟨?_, ?_, ?_, ?_⟩ <;> norm_num [blocksPerRow, blocksPerColumn]

/-- C3, witness: the spec's boundary instance, `width = 300, height =
100` on an all-zero full-size payload — grid `1 x 2`, cropped planes
`100` rows of `300`. -/
theorem claim_C3_witness :
    blocksPerRow 100 = 1 ∧ blocksPerColumn 300 = 2 ∧
    (∃ bgr alpha,
      convertExternalDataToImage data300 300 100 = .ok (some (bgr, alpha)) ∧
      alpha.length = 100 ∧ (∀ row ∈ alpha, row.length = 300) ∧
      bgr.length = 100 ∧ (∀ row ∈ bgr, row.length = 300)) := by
  have h := claim_C3 300 100 data300 (by norm_num) (by norm_num)
    (by rw [data300, List.length_replicate]; norm_num [blocksPerRow, blocksPerColumn])
  obtain ⟨-, ⟨bgr, alpha, hconv, h1, h2, h3, h4, -⟩, hnum⟩ := h
  exact ⟨hnum.1, hnum.2.1, bgr, alpha, hconv, h1, h2, h3, h4⟩

/-- C5: a begin-chunk sub-block with exists flag 0 contributes exactly
`uncompressed_size` zero bytes and no error; an all-zero payload of the
declared full size reconstructs as fully transparent all-zero planes of
the declared dimensions. -/
theorem claim_C5 : ∀ (inflate : Bytes → Option Bytes) (buf : Bytes) (offset : Nat),
    (offset + 20 ≤ buf.length → readBE32 buf (offset + 16) = 0 →
      processBlockDataChunk inflate buf offset =
        List.replicate (readBE32 buf (offset + 4)) 0) ∧
    (∀ w h, 0 < w → 0 < h →
      ∃ bgr alpha,
        convertExternalDataToImage
          (List.replicate (blocksPerRow h * blocksPerColumn w * 327680) 0) w h =
          .ok (some (bgr, alpha)) ∧
        alpha.length = h ∧ (∀ row ∈ alpha, row.length = w) ∧
        (∀ y x, y < h → x < w → (alpha.getD y []).getD x 0 = 0) ∧
        (∀ y x c, y < h → x < w → c < 3 →
          ((bgr.getD y []).getD x []).getD c 0 = 0)) := by
  intro inflate buf offset
  constructor
  · intro h20 hflag
    rw [processBlockDataChunk, if_pos h20, hflag, if_neg (by omega)]
  · intro w h hw hh
    have hlen : (List.replicate (blocksPerRow h * blocksPerColumn w * 327680)
        (0 : Nat)).length = blocksPerRow h * blocksPerColumn w * 327680 :=
      List.length_replicate _ _
    refine ⟨_, _, convert_full _ w h hw hh hlen,
      croppedAlpha_length _ w h hw hh,
      croppedAlpha_row_length _ w h hw hh hlen, ?_, ?_⟩
    · intro y x hy hx
      rw [croppedAlpha_entry _ w h hw hh hlen y x hy hx]
      exact getD_replicate_zero _ _
    · intro y x c hy hx hc
      rw [croppedBgr_entry _ w h hw hh hlen y x c hy hx hc]
      exact getD_replicate_zero _ _

/-- C5, witness: a concrete 20-byte begin-chunk payload with exists flag
0 and uncompressed size 3 yields exactly three zero bytes, and the 1x1
all-zero payload reconstructs to an all-zero pixel. -/
theorem claim_C5_witness :
    processBlockDataChunk (fun _ => none) buf20 0 = [0, 0, 0] ∧
    (∃ bgr alpha,
      convertExternalDataToImage data1 1 1 = .ok (some (bgr, alpha)) ∧
      (alpha.getD 0 []).getD 0 0 = 0 ∧
      ((bgr.getD 0 []).getD 0 []).getD 0 0 = 0) := by
  obtain ⟨h1, h2⟩ := claim_C5 (fun _ => none) buf20 0
  constructor
  · rw [h1 (by decide) (by decide)]
    decide
  · obtain ⟨bgr, alpha, hconv, -, -, hza, hzb⟩ := h2 1 1 (by norm_num) (by norm_num)
    have hdata : List.replicate (blocksPerRow 1 * blocksPerColumn 1 * 327680)
        (0 : Nat) = data1 := by
      rw [data1]
      norm_num [blocksPerRow, blocksPerColumn]
    rw [hdata] at hconv
    exact ⟨bgr, alpha, hconv, hza 0 0 (by norm_num) (by norm_num),
      hzb 0 0 0 (by norm_num) (by norm_num) (by norm_num)⟩

end PsdConvert
